import Mathlib

/-!
Verification development for the pyNTM FlexModel network simulation engine
(`src/pyNTM/flex_model.py`).  The Python classes are shallowly embedded as
Lean structures; Python sets of entity objects become Lean lists, object
mutation becomes functional update, floating-point bandwidth arithmetic is
carried out in `ℚ`, and the exceptions of the Python code are modelled with
`Except` / `Option` results.  Helper code that lives in modules not present
under `src/` (`master_model.py`, `interface.py`, `utilities.py`) is modelled
from the specification, and each such definition carries a doc comment
starting with `Modelled from the spec:`.
-/

namespace PyNTM

/-- Modelled from the spec: the `Interface` entity of `interface.py` (absent
from `src/`), §3 of the spec.  Static attributes plus the two derived
counters `reserved_bandwidth` and `traffic`.  `node` and `remote_node` hold
the names of the local and remote `Node` (arena style, per §9). -/
structure Intf where
  intf_name : String
  cost : Nat
  capacity : ℚ
  node : String
  remote_node : String
  circuit_id : String
  rsvp_enabled : Bool
  percent_reservable_bandwidth : ℚ
  failed : Bool
  reserved_bandwidth : ℚ
  traffic : ℚ
deriving DecidableEq

/-- Modelled from the spec: derived quantity of `interface.py` (absent from
`src/`): `reservable_bandwidth = capacity × percent_reservable_bandwidth /
100 − reserved_bandwidth` (§3). -/
def reservable_bandwidth (i : Intf) : ℚ :=
  i.capacity * i.percent_reservable_bandwidth / 100 - i.reserved_bandwidth

/-- Modelled from the spec: the `Node` entity of `node.py` (absent from
`src/`), §3.  `srlgs` holds the names of the SRLGs the node records
membership in. -/
structure NodeObj where
  node_name : String
  srlgs : List String
  failed : Bool
deriving DecidableEq

/-- Modelled from the spec: the `SRLG` entity (absent from `src/`), §3.
`node_objects` holds the names of member nodes. -/
structure Srlg where
  srlg_name : String
  node_objects : List String
  failed : Bool
deriving DecidableEq

/-- The `path` attribute of an RSVP LSP: either the string sentinel
`'Unrouted'` or the routed record with keys `interfaces` and
`baseline_path_cost` (set by `_add_lsp_path_data`). -/
inductive LspPathState where
  | unrouted
  | routed (interfaces : List Intf) (baseline_path_cost : Nat)
deriving DecidableEq

/-- Whether `'Unrouted' not in lsp.path` holds for the path value, i.e. the
path is the routed dict rather than the sentinel string. -/
def LspPathState.is_routed : LspPathState → Bool
  | .unrouted => false
  | .routed _ _ => true

/-- A bandwidth attribute of an LSP (`setup_bandwidth`,
`reserved_bandwidth`): a number or the string sentinel `'Unrouted'`. -/
inductive BwState where
  | unrouted
  | val (q : ℚ)
deriving DecidableEq

/-- Modelled from the spec: the RSVP LSP entity of `rsvp.py` (absent from
`src/`), §3.  Static identity plus the mutable placement state. -/
structure Lsp where
  source : String
  dest : String
  lsp_name : String
  configured_setup_bandwidth : Option ℚ
  path : LspPathState
  setup_bandwidth : BwState
  reserved_bandwidth : BwState
deriving DecidableEq

/-- The `path` attribute of a demand: the sentinel `'Unrouted'`, a list of
routed LSPs carrying the demand, or a list of concrete interface sequences
(IP ECMP members). -/
inductive DemandPathState where
  | unrouted
  | on_lsps (ls : List Lsp)
  | ip (paths : List (List Intf))
deriving DecidableEq

/-- Modelled from the spec: the `Demand` entity (absent from `src/`), §3. -/
structure Demand where
  source : String
  dest : String
  traffic : ℚ
  demand_name : String
  path : DemandPathState
deriving DecidableEq

/-- The `FlexModel` object: sets of entity objects become lists.
`parallel_lsp_groups` embeds the `_parallel_lsp_groups` cache attribute. -/
structure Model where
  interface_objects : List Intf
  node_objects : List NodeObj
  demand_objects : List Demand
  rsvp_lsp_objects : List Lsp
  srlg_objects : List Srlg
  parallel_lsp_groups : List ((String × String) × List Lsp)
deriving DecidableEq

/-- A networkx `MultiDiGraph` as produced by
`_make_weighted_network_graph_mdg`: each eligible interface is one directed
edge (carrying its cost and circuit_id through the `Intf` value itself), and
the vertex set collects the edge endpoints together with every model node
name. -/
structure NetGraph where
  edges : List Intf
  vertices : List String
deriving DecidableEq

/-- Embeds the two-branch `considered_interfaces` generator of
`_make_weighted_network_graph_mdg` (flex_model.py lines 369-375): the
`failed` / `reservable_bandwidth` eligibility filter. -/
def considered_interfaces (interface_objects : List Intf)
    (include_failed_circuits : Bool) (needed_bw : ℚ) : List Intf :=
  if include_failed_circuits = false then
    interface_objects.filter
      (fun i => !i.failed && decide (reservable_bandwidth i ≥ needed_bw))
  else
    interface_objects.filter
      (fun i => decide (reservable_bandwidth i ≥ needed_bw))

/-- Embeds `FlexModel._make_weighted_network_graph_mdg` (flex_model.py lines
352-396): edges are the considered interfaces, further filtered on
`rsvp_enabled` when `rsvp_required` is true; vertices are the edge endpoints
(added by `add_edges_from`) together with every node name of the model
(added by `add_nodes_from`). -/
def _make_weighted_network_graph_mdg (interface_objects : List Intf)
    (node_objects : List NodeObj) (include_failed_circuits : Bool)
    (needed_bw : ℚ) (rsvp_required : Bool) : NetGraph :=
  let cons := considered_interfaces interface_objects include_failed_circuits needed_bw
  let edges := if rsvp_required = true then cons.filter (fun i => i.rsvp_enabled) else cons
  { edges := edges
    vertices := edges.flatMap (fun i => [i.node, i.remote_node])
      ++ node_objects.map NodeObj.node_name }

/-- The edge-inclusion predicate claimed for the topology graph builder:
`(include_failed ∨ ¬ failed) ∧ reservable ≥ needed_bw ∧ (¬ rsvp_required ∨
rsvp_enabled)`. -/
def edge_eligible (include_failed_circuits : Bool) (needed_bw : ℚ)
    (rsvp_required : Bool) (i : Intf) : Bool :=
  (include_failed_circuits || !i.failed)
    && decide (reservable_bandwidth i ≥ needed_bw)
    && (!rsvp_required || i.rsvp_enabled)

/-- All (multi-)edges from node `u` to node `v` in the graph: the view
`G[u][v]` of the networkx multidigraph. -/
def edges_between (G : NetGraph) (u v : String) : List Intf :=
  G.edges.filter (fun i => i.node == u && i.remote_node == v)

/-- networkx `G.has_edge(u, v)`: is there at least one edge from `u` to
`v`? -/
def has_edge (G : NetGraph) (u v : String) : Bool :=
  G.edges.any (fun i => i.node == u && i.remote_node == v)

/-- The distinct successor node names of `u` in the graph. -/
def successors (G : NetGraph) (u : String) : List String :=
  ((G.edges.filter (fun i => i.node == u)).map Intf.remote_node).dedup

/-- The minimum `cost` among the parallel edges from `u` to `v` — the
`min_weight` computed in `_get_all_paths_mdg` (flex_model.py line 338) and
the per-hop step weight used by weighted shortest-path search over a
multidigraph. -/
def min_edge_cost (G : NetGraph) (u v : String) : Nat :=
  (((edges_between G u v).map Intf.cost).min?).getD 0

/-- Total weighted cost of a node-hop path, one `min_edge_cost` step per
adjacent pair. -/
def path_cost (G : NetGraph) : List String → Nat
  | u :: v :: rest => min_edge_cost G u v + path_cost G (v :: rest)
  | _ => 0

/-- Fuel-bounded enumeration of all simple (no repeated node) paths from
`cur` to `dst` avoiding `visited`.  Together with the minimum-cost filter
below this models the behavior of `networkx.all_shortest_paths` on the
multidigraph. -/
def simple_paths_aux (G : NetGraph) (dst : String) :
    Nat → String → List String → List (List String)
  | 0, _, _ => []
  | fuel + 1, cur, visited =>
    if cur = dst then [[cur]]
    else
      ((successors G cur).filter (fun v => !(cur :: visited).contains v)).flatMap
        (fun v => (simple_paths_aux G dst fuel v (cur :: visited)).map (cur :: ·))

/-- All simple node paths from `src` to `dst` in `G`. -/
def all_simple_node_paths (G : NetGraph) (src dst : String) : List (List String) :=
  simple_paths_aux G dst (G.vertices.length + 1) src []

/-- Modelled behavior of the external `networkx.all_shortest_paths(G, src,
dst, weight='cost')` call: `none` models the `NetworkXNoPath` exception
(no node path at all), otherwise all node paths of minimum total cost. -/
def all_shortest_paths (G : NetGraph) (src dst : String) :
    Option (List (List String)) :=
  let ps := all_simple_node_paths G src dst
  match (ps.map (path_cost G)).min? with
  | none => none
  | some m => some (ps.filter (fun p => path_cost G p == m))

/-- The adjacent pairs `(n_j, n_j+1)` of a node-hop sequence. -/
def hops : List String → List (String × String)
  | u :: v :: rest => (u, v) :: hops (v :: rest)
  | _ => []

/-- The `ecmp_links` computed per hop in `_get_all_paths_mdg` (flex_model.py
lines 338-345): the parallel edges from `u` to `v` whose cost equals the
minimum cost among those edges. -/
def ecmp_links (G : NetGraph) (u v : String) : List Intf :=
  (edges_between G u v).filter (fun i => i.cost == min_edge_cost G u v)

/-- Embeds `FlexModel._get_all_paths_mdg` (flex_model.py lines 292-350):
for each node-hop path, the per-hop lists of minimum-cost parallel
interfaces. -/
def _get_all_paths_mdg (G : NetGraph) (nx_sp : List (List String)) :
    List (List (List Intf)) :=
  nx_sp.map (fun p => (hops p).map (fun uv => ecmp_links G uv.1 uv.2))

/-- The `itertools.product(*path)` call of `_normalize_multidigraph_paths`:
all ways of picking one element from each component list, in the product
iteration order. -/
def product_lists {α : Type} : List (List α) → List (List α)
  | [] => [[]]
  | l :: ls => l.flatMap (fun x => (product_lists ls).map (x :: ·))

/-- Embeds `FlexModel._normalize_multidigraph_paths` (flex_model.py lines
398-456): flatten the per-path Cartesian products into the list of concrete
interface sequences. -/
def _normalize_multidigraph_paths (path_info : List (List (List Intf))) :
    List (List Intf) :=
  path_info.flatMap product_lists

/-- The claim-shaped local ECMP set: edges between the pair whose cost is
less than or equal to the cost of every edge between the pair. -/
def min_cost_edge_set (G : NetGraph) (u v : String) : List Intf :=
  (edges_between G u v).filter
    (fun i => decide (∀ j ∈ edges_between G u v, i.cost ≤ j.cost))

/-- Number of occurrences of interface `i` in a concrete path. -/
def count_occ (path : List Intf) (i : Intf) : Nat :=
  path.countP (fun j => decide (j = i))

/-- The reservation commit of `_determine_lsp_state_info` (flex_model.py
lines 954-955): `interface.reserved_bandwidth += lsp.reserved_bandwidth`
for each occurrence of the interface on the chosen path.  Python mutates
the interface object once per occurrence, hence the `count_occ` factor. -/
def commit_reservations (interface_objects : List Intf) (path : List Intf)
    (amt : ℚ) : List Intf :=
  interface_objects.map (fun i =>
    { i with reserved_bandwidth := i.reserved_bandwidth + amt * (count_occ path i : ℚ) })

/-- The bandwidth gate of `_determine_lsp_state_info` (flex_model.py line
931): `min(reservable_bandwidth for interface in path) >= setup_bandwidth`.
An empty path has no minimum (Python would raise `ValueError`); it is
treated as not qualifying. -/
def path_reservable_pred (setup : ℚ) (path : List Intf) : Bool :=
  match (path.map reservable_bandwidth).min? with
  | some q => decide (setup ≤ q)
  | none => false

/-- The tie-breaking selection of `_determine_lsp_state_info` (flex_model.py
lines 940-949): with more than one candidate, keep those with fewest hops
and, when several remain, choose by `random.choice` — modelled by indexing
with `pick % length`.  With a single candidate, take it directly. -/
def select_path (cands : List (List Intf)) (pick : Nat) : List Intf :=
  if 1 < cands.length then
    let fewest := ((cands.map List.length).min?).getD 0
    let lowest_hop_count_paths := cands.filter (fun p => p.length == fewest)
    if 1 < lowest_hop_count_paths.length then
      lowest_hop_count_paths.getD (pick % lowest_hop_count_paths.length) []
    else
      lowest_hop_count_paths.getD 0 []
  else
    cands.getD 0 []

/-- The setup bandwidth assigned at the top of `_determine_lsp_state_info`
(flex_model.py lines 896-901): the configured setup bandwidth when present,
else the per-LSP share of the group traffic (auto-bandwidth). -/
def effective_setup_bandwidth (lsp : Lsp) (traff_on_each_group_lsp : ℚ) : ℚ :=
  match lsp.configured_setup_bandwidth with
  | none => traff_on_each_group_lsp
  | some c => c

/-- Modelled from the spec: `_add_lsp_path_data` of `master_model.py`
(absent from `src/`): record the chosen interface sequence with
`baseline_path_cost` the sum of the interface costs (§4.4, commit step). -/
def add_lsp_path_data (path : List Intf) : LspPathState :=
  LspPathState.routed path ((path.map Intf.cost).sum)

/-- Embeds the per-LSP body of `FlexModel._determine_lsp_state_info`
(flex_model.py lines 892-955): assign setup/reserved bandwidth, build the
RSVP graph gated at the setup bandwidth, find all shortest node paths,
enumerate and gate the concrete paths, tie-break, and commit the
reservation on the chosen path.  Returns the updated interface list and
the updated LSP. -/
def _determine_lsp_state_info_one (interface_objects : List Intf)
    (node_objects : List NodeObj) (lsp : Lsp) (traff_on_each_group_lsp : ℚ)
    (pick : Nat) : List Intf × Lsp :=
  let setup := effective_setup_bandwidth lsp traff_on_each_group_lsp
  let G := _make_weighted_network_graph_mdg interface_objects node_objects
    false setup true
  match all_shortest_paths G lsp.source lsp.dest with
  | none =>
    (interface_objects,
     { lsp with path := LspPathState.unrouted,
                setup_bandwidth := BwState.val setup,
                reserved_bandwidth := BwState.unrouted })
  | some nx_sp =>
    let candidate_path_info :=
      _normalize_multidigraph_paths (_get_all_paths_mdg G nx_sp)
    let candidate_path_info_w_reservable_bw :=
      candidate_path_info.filter (path_reservable_pred setup)
    if candidate_path_info_w_reservable_bw.length = 0 then
      (interface_objects,
       { lsp with path := LspPathState.unrouted,
                  setup_bandwidth := BwState.val setup,
                  reserved_bandwidth := BwState.unrouted })
    else
      let new_path := select_path candidate_path_info_w_reservable_bw pick
      (commit_reservations interface_objects new_path setup,
       { lsp with path := add_lsp_path_data new_path,
                  setup_bandwidth := BwState.val setup,
                  reserved_bandwidth := BwState.val setup })

/-- The interface sequence of a routed LSP path, `[]` when unrouted. -/
def LspPathState.interfaces_or_nil : LspPathState → List Intf
  | .unrouted => []
  | .routed ifs _ => ifs

/-- Modelled from the spec: the traffic estimate of §4.4 step 1 (the LSP
grouping lives in `master_model.py`, absent from `src/`): total traffic of
the demands whose endpoints match the group key. -/
def demand_traffic_for (demands : List Demand) (k : String × String) : ℚ :=
  ((demands.filter (fun d => d.source == k.1 && d.dest == k.2)).map
    Demand.traffic).sum

/-- Modelled from the spec: the size of the parallel-LSP group of key `k`
(§4.4): the number of LSPs sharing those endpoints. -/
def parallel_group_size (lsps : List Lsp) (k : String × String) : Nat :=
  (lsps.filter (fun l => l.source == k.1 && l.dest == k.2)).length

/-- Modelled from the spec: the iteration of `_route_lsps` of
`master_model.py` (absent from `src/`), §4.4: each LSP is signalled once,
in the (unspecified, here list-order) iteration order, with
`traff_on_each_group_lsp` the group demand traffic divided by the group
size; `full_lsps` is the unmodified LSP list used for the static group
sizes and `o` supplies the random tie-break pick for each position. -/
def route_lsps_go (full_lsps : List Lsp) (demands : List Demand)
    (node_objects : List NodeObj) (o : Nat → Nat) :
    List Lsp → Nat → List Intf → List Intf × List Lsp
  | [], _, intfs => (intfs, [])
  | lsp :: rest, idx, intfs =>
    let traff := demand_traffic_for demands (lsp.source, lsp.dest)
      / (parallel_group_size full_lsps (lsp.source, lsp.dest) : ℚ)
    let r1 := _determine_lsp_state_info_one intfs node_objects lsp traff (o idx)
    let r2 := route_lsps_go full_lsps demands node_objects o rest (idx + 1) r1.1
    (r2.1, r1.2 :: r2.2)

/-- The parallel-LSP group keys, in order of first appearance. -/
def lsp_group_keys (lsps : List Lsp) : List (String × String) :=
  (lsps.map (fun l => (l.source, l.dest))).dedup

/-- Modelled from the spec: `_route_lsps` of `master_model.py` (absent from
`src/`), §4.4: route every LSP (via the placer embedded from
`_determine_lsp_state_info`) and record the parallel-LSP groups in the
`_parallel_lsp_groups` cache. -/
def _route_lsps (m : Model) (o : Nat → Nat) : Model :=
  let r := route_lsps_go m.rsvp_lsp_objects m.demand_objects m.node_objects o
    m.rsvp_lsp_objects 0 m.interface_objects
  { m with
    interface_objects := r.1
    rsvp_lsp_objects := r.2
    parallel_lsp_groups := (lsp_group_keys r.2).map
      (fun k => (k, r.2.filter (fun l => l.source == k.1 && l.dest == k.2))) }

/-- The LSPs eligible to carry a demand in `_route_demands` (flex_model.py
lines 263-267): same source node, same dest node, and `'Unrouted' not in
lsp.path`. -/
def routed_lsps_between (lsps : List Lsp) (d : Demand) : List Lsp :=
  lsps.filter
    (fun l => l.source == d.source && l.dest == d.dest && l.path.is_routed)

/-- Modelled from the spec: per-interface traffic contribution of one
demand, §4.5 (`_update_interface_utilization` lives in `master_model.py`,
absent from `src/`): an IP-ECMP demand with `k` concrete paths adds
`traffic / k` per occurrence of the interface on each path; a demand riding
`k` routed LSPs adds `traffic / k` per occurrence on each LSP's path. -/
def demand_traffic_on_interface (d : Demand) (i : Intf) : ℚ :=
  match d.path with
  | .unrouted => 0
  | .ip paths =>
    ((paths.map (fun p => (count_occ p i : ℚ))).sum) * d.traffic
      / (paths.length : ℚ)
  | .on_lsps ls =>
    ((ls.map (fun l => (count_occ l.path.interfaces_or_nil i : ℚ))).sum)
      * d.traffic / (ls.length : ℚ)

/-- The traffic accumulation of §4.5 applied to one interface. -/
def interface_with_traffic (demands : List Demand) (i : Intf) : Intf :=
  { i with traffic := i.traffic
      + ((demands.map (fun d => demand_traffic_on_interface d i)).sum) }

/-- Modelled from the spec: `_update_interface_utilization` of
`master_model.py` (absent from `src/`), §4.5: accumulate every demand's
traffic contribution onto each interface's `traffic` counter. -/
def _update_interface_utilization (m : Model) : Model :=
  { m with
    interface_objects :=
      m.interface_objects.map (interface_with_traffic m.demand_objects) }

/-- The per-demand body of `FlexModel._route_demands` (flex_model.py lines
259-286): collect the routed LSPs between the demand's endpoints and ride
them when any exist, otherwise take all min-cost node paths (`'Unrouted'`
on `NetworkXNoPath`) and ride every normalized concrete interface
sequence. -/
def route_one_demand (G : NetGraph) (lsps : List Lsp) (d : Demand) : Demand :=
  let lsp_carriers := routed_lsps_between lsps d
  if lsp_carriers.isEmpty then
    match all_shortest_paths G d.source d.dest with
    | none => { d with path := DemandPathState.unrouted }
    | some nx_sp =>
      let path_list := _normalize_multidigraph_paths (_get_all_paths_mdg G nx_sp)
      { d with path := DemandPathState.ip path_list }
  else
    { d with path := DemandPathState.on_lsps lsp_carriers }

/-- Embeds `FlexModel._route_demands` (flex_model.py lines 249-290): the
graph is built once with `include_failed=false`, `needed_bw=0`,
`rsvp_required=false`; each demand is routed by `route_one_demand`;
finally interface utilization is updated. -/
def _route_demands (m : Model) : Model :=
  let G := _make_weighted_network_graph_mdg m.interface_objects
    m.node_objects false 0 false
  let demands' :=
    m.demand_objects.map (route_one_demand G m.rsvp_lsp_objects)
  _update_interface_utilization { m with demand_objects := demands' }

/-- The per-interface counter reset of `update_simulation` (flex_model.py
lines 229-231). -/
def zero_intf_counters (i : Intf) : Intf :=
  { i with reserved_bandwidth := 0, traffic := 0 }

/-- The per-LSP path reset of `update_simulation` (flex_model.py lines
233-234). -/
def lsp_path_reset (l : Lsp) : Lsp :=
  { l with path := LspPathState.unrouted }

/-- The per-demand path reset of `update_simulation` (flex_model.py lines
236-237). -/
def demand_path_reset (d : Demand) : Demand :=
  { d with path := DemandPathState.unrouted }

/-- The static part of an LSP: all simulation-derived fields normalized.
Two LSPs with the same `lsp_scrub` image differ at most in derived
placement state. -/
def lsp_scrub (l : Lsp) : Lsp :=
  { l with path := LspPathState.unrouted,
           setup_bandwidth := BwState.unrouted,
           reserved_bandwidth := BwState.unrouted }

/-- The reset step of `update_simulation` (flex_model.py lines 205-237):
clear the parallel-LSP group cache, zero `reserved_bandwidth` and `traffic`
on every interface, and set every LSP and demand path to `'Unrouted'`.
The LSP `setup_bandwidth` / `reserved_bandwidth` numbers are, as in the
source, not reset here. -/
def reset_model (m : Model) : Model :=
  { m with
    interface_objects := m.interface_objects.map zero_intf_counters
    rsvp_lsp_objects := m.rsvp_lsp_objects.map lsp_path_reset
    demand_objects := m.demand_objects.map demand_path_reset
    parallel_lsp_groups := [] }

/-- Embeds `FlexModel.update_simulation` (flex_model.py lines 195-247):
reset the derived state, route the LSPs, then route the demands (which
also aggregates interface utilization).  The final `validate_model` call
only checks invariants (its circuit bookkeeping is not part of the
simulation state embedded here), so it is modelled separately by
`validate_model` below. -/
def update_simulation (m : Model) (o : Nat → Nat) : Model :=
  _route_demands (_route_lsps (reset_model m) o)

/-- Embeds `FlexModel.get_interface_object_from_nodes` (flex_model.py lines
527-564) with `circuit_id=None`: all interfaces with the given local and
remote node names. -/
def get_interface_object_from_nodes (interface_objects : List Intf)
    (local_node_name remote_node_name : String) : List Intf :=
  interface_objects.filter (fun i =>
    i.node == local_node_name && i.remote_node == remote_node_name)

/-- Embeds `FlexModel.get_interface_object_from_nodes` (flex_model.py lines
527-564) with a `circuit_id` argument: narrowed by the circuit id. -/
def get_interface_object_from_nodes_cid (interface_objects : List Intf)
    (local_node_name remote_node_name circuit_id : String) : List Intf :=
  interface_objects.filter (fun i =>
    i.node == local_node_name && i.remote_node == remote_node_name
      && i.circuit_id == circuit_id)

/-- Embeds `FlexModel._convert_nx_path_to_model_path` (flex_model.py lines
783-822): per adjacent hop pair, all interfaces between the nodes with at
least the needed reservable bandwidth. -/
def _convert_nx_path_to_model_path (interface_objects : List Intf)
    (nx_graph_path : List String) (needed_bw : ℚ) : List (List Intf) :=
  (hops nx_graph_path).map (fun uv =>
    (get_interface_object_from_nodes interface_objects uv.1 uv.2).filter
      (fun i => decide (reservable_bandwidth i ≥ needed_bw)))

/-- The dictionary returned by `get_shortest_path`: keys `cost` (an
integer, `None` when nothing was found) and `path`. -/
structure ShortestPathResult where
  cost : Option Nat
  path : List (List Intf)
deriving DecidableEq

/-- Embeds `FlexModel.get_shortest_path` (flex_model.py lines 705-742):
build the graph with `include_failed=false` at the needed bandwidth,
convert every shortest node path, recording the weighted shortest-path
length as `cost`; the `NetworkXNoPath` exception (here the `none` branch)
is caught and the partial dictionary (empty path, `cost=None`) returned. -/
def get_shortest_path (m : Model) (source_node_name dest_node_name : String)
    (needed_bw : ℚ) : ShortestPathResult :=
  let G := _make_weighted_network_graph_mdg m.interface_objects
    m.node_objects false needed_bw false
  match all_shortest_paths G source_node_name dest_node_name with
  | none => { cost := none, path := [] }
  | some sps =>
    { cost := ((all_simple_node_paths G source_node_name dest_node_name).map
        (path_cost G)).min?
      path := _normalize_multidigraph_paths
        (sps.map (fun p =>
          _convert_nx_path_to_model_path m.interface_objects p needed_bw)) }

/-- Modelled behavior of the external `networkx.all_simple_paths` call with
a `cutoff` bound on the number of hops. -/
def all_simple_paths_cutoff (G : NetGraph) (src dst : String)
    (cutoff : Nat) : List (List String) :=
  simple_paths_aux G dst (cutoff + 1) src []

/-- Embeds `FlexModel.get_all_paths_reservable_bw` (flex_model.py lines
642-703): all simple paths up to `cutoff` hops in the graph gated at
`needed_bw`, deduplicated (the Python `set()` pass), converted and
normalized; with no path at all the returned dictionary's `path` entry is
the empty list. -/
def get_all_paths_reservable_bw (m : Model)
    (source_node_name dest_node_name : String)
    (include_failed_circuits : Bool) (cutoff : Nat) (needed_bw : ℚ) :
    List (List Intf) :=
  let G := _make_weighted_network_graph_mdg m.interface_objects
    m.node_objects include_failed_circuits needed_bw false
  let digraph_unique_paths :=
    (all_simple_paths_cutoff G source_node_name dest_node_name cutoff).dedup
  _normalize_multidigraph_paths
    (digraph_unique_paths.map (fun p =>
      _convert_nx_path_to_model_path m.interface_objects p needed_bw))

/-- The exceptions `_make_circuits_multidigraph` can raise (flex_model.py
lines 487-523): a failed interface lookup while pairing, or interfaces
with no reverse edge. -/
inductive CircuitsError where
  | no_matching_interface (source_node dest_node circuit_id : String)
  | unmatched_interfaces (data : List Intf)
deriving DecidableEq

/-- The graph edges that have a reverse edge — the `graph_interfaces`
generator of `_make_circuits_multidigraph` (flex_model.py lines 474-476). -/
def graph_paired_edges (G : NetGraph) : List Intf :=
  G.edges.filter (fun e => has_edge G e.remote_node e.node)

/-- The graph edges with no reverse edge — `exception_ints_not_in_ckt` of
`_make_circuits_multidigraph` (flex_model.py lines 513-515). -/
def graph_orphan_edges (G : NetGraph) : List Intf :=
  G.edges.filter (fun e => !(has_edge G e.remote_node e.node))

/-- The pairing loop of `_make_circuits_multidigraph` (flex_model.py lines
487-510): look up both member interfaces by `(node, remote_node,
circuit_id)` (a lookup returning no — or more than one — interface raises),
and create each circuit once, tracking `in_ckt` marks by interface key. -/
def pair_circuits_go (interface_objects : List Intf) :
    List Intf → List (String × String) → List (Intf × Intf) →
    Except CircuitsError (List (Intf × Intf))
  | [], _, circuits => Except.ok circuits
  | e :: rest, in_ckt_keys, circuits =>
    match get_interface_object_from_nodes_cid interface_objects e.node
        e.remote_node e.circuit_id with
    | [int1] =>
      match get_interface_object_from_nodes_cid interface_objects
          e.remote_node e.node e.circuit_id with
      | [int2] =>
        if !(in_ckt_keys.contains (int1.node, int1.intf_name))
            && !(in_ckt_keys.contains (int2.node, int2.intf_name)) then
          pair_circuits_go interface_objects rest
            ((int1.node, int1.intf_name) :: (int2.node, int2.intf_name)
              :: in_ckt_keys)
            (circuits ++ [(int1, int2)])
        else
          pair_circuits_go interface_objects rest in_ckt_keys circuits
      | _ =>
        Except.error
          (CircuitsError.no_matching_interface e.remote_node e.node e.circuit_id)
    | _ =>
      Except.error
        (CircuitsError.no_matching_interface e.node e.remote_node e.circuit_id)

/-- Embeds `FlexModel._make_circuits_multidigraph` (flex_model.py lines
458-525): pair interfaces into circuits over the `include_failed` graph;
when unmatched interfaces remain, raise if `return_exception` is set, else
return them as data.  On success the circuits and the optional orphan data
are returned. -/
def _make_circuits_multidigraph (m : Model) (return_exception : Bool) :
    Except CircuitsError (List (Intf × Intf) × Option (List Intf)) :=
  let G := _make_weighted_network_graph_mdg m.interface_objects
    m.node_objects true 0 false
  match pair_circuits_go m.interface_objects (graph_paired_edges G) [] [] with
  | Except.error e => Except.error e
  | Except.ok circuits =>
    let exception_ints_not_in_ckt := graph_orphan_edges G
    if exception_ints_not_in_ckt.length > 0 then
      if return_exception then
        Except.error
          (CircuitsError.unmatched_interfaces exception_ints_not_in_ckt)
      else
        Except.ok (circuits, some exception_ints_not_in_ckt)
    else
      Except.ok (circuits, none)

/-- Modelled from the spec: the reservation total of §4.3 check 5 / P2
(`_make_int_info_dict` and `_reserved_bw_error_checks` live in
`master_model.py`, absent from `src/`): the sum of `reserved_bandwidth`
over routed LSPs whose recorded path contains the interface. -/
def lsp_reserved_sum_on (lsps : List Lsp) (i : Intf) : ℚ :=
  (lsps.map (fun l =>
    match l.path, l.reserved_bandwidth with
    | LspPathState.routed ifs _, BwState.val r => if i ∈ ifs then r else 0
    | _, _ => 0)).sum

/-- Modelled from the spec: §4.3 check 4 — interfaces whose reserved
bandwidth exceeds `capacity * percent_reservable_bandwidth / 100`,
identified by `(node, name)` key. -/
def int_res_bw_too_high (m : Model) : List (String × String) :=
  (m.interface_objects.filter (fun i =>
    decide (i.capacity * i.percent_reservable_bandwidth / 100
      < i.reserved_bandwidth))).map (fun i => (i.node, i.intf_name))

/-- Modelled from the spec: §4.3 check 5 — interfaces whose reserved
bandwidth differs from the sum of the reservations of routed LSPs over
them. -/
def int_res_bw_sum_error (m : Model) : List (String × String) :=
  (m.interface_objects.filter (fun i =>
    !(decide (i.reserved_bandwidth
      = lsp_reserved_sum_on m.rsvp_lsp_objects i)))).map
    (fun i => (i.node, i.intf_name))

/-- Modelled from the spec: §4.3 check 3 — no node carries two interfaces
with the same name (`_unique_interface_per_node` lives in
`master_model.py`, absent from `src/`). -/
def unique_interface_per_node (m : Model) : Bool :=
  m.node_objects.all (fun n =>
    decide (((m.interface_objects.filter
      (fun i => i.node == n.node_name)).map Intf.intf_name).Nodup))

/-- Modelled from the spec: §4.3 check 2 — circuits whose two interfaces
disagree on capacity or failed state
(`_validate_circuit_interface_capacity` lives in `master_model.py`, absent
from `src/`). -/
def circuits_with_mismatched_interface_capacity
    (circuits : List (Intf × Intf)) : List (Intf × Intf) :=
  circuits.filter (fun c =>
    c.1.capacity != c.2.capacity || c.1.failed != c.2.failed)

/-- The `try/except KeyError` dictionary update of the SRLG check
(flex_model.py lines 170-174): an existing key appends the SRLG name, a
fresh key is inserted with an empty list. -/
def srlg_record_error (acc : List (String × List String))
    (node_name srlg_name : String) : List (String × List String) :=
  if acc.any (fun kv => kv.1 == node_name) then
    acc.map (fun kv =>
      if kv.1 == node_name then (kv.1, kv.2 ++ [srlg_name]) else kv)
  else
    acc ++ [(node_name, [])]

/-- The SRLG memberships recorded on a node, looked up by name (arena
style). -/
def node_srlgs_of (m : Model) (node_name : String) : List String :=
  match m.node_objects.find? (fun n => n.node_name == node_name) with
  | some n => n.srlgs
  | none => []

/-- The SRLG symmetry check of `validate_model` (flex_model.py lines
163-177): for each SRLG, the member nodes that do not record the SRLG. -/
def srlg_errors_calc (m : Model) : List (String × List String) :=
  m.srlg_objects.foldl (fun acc srlg =>
    ((srlg.node_objects.filter (fun nn =>
      !((node_srlgs_of m nn).contains srlg.srlg_name))).foldl
      (fun acc2 nn => srlg_record_error acc2 nn srlg.srlg_name) acc)) []

/-- The number of distinct node names (flex_model.py line 180). -/
def node_names_dedup_count (m : Model) : Nat :=
  ((m.node_objects.map NodeObj.node_name).dedup).length

/-- One entry of the `error_data` list accumulated by `validate_model`
(flex_model.py lines 127-184). -/
inductive ErrItem where
  | int_res_bw_too_high (keys : List (String × String))
  | int_res_bw_sum_error (keys : List (String × String))
  | duplicate_interfaces_on_node
  | circuits_with_mismatched_interface_capacity (data : List (Intf × Intf))
  | srlg_errors (data : List (String × List String))
  | duplicate_node_names (num_node_objects num_node_names : Nat)
deriving DecidableEq

/-- The two ways `validate_model` can raise: the exception propagated from
`_make_circuits_multidigraph(return_exception=True)` (flex_model.py line
116), or the aggregate `ModelException` built from `error_data`
(flex_model.py lines 187-191). -/
inductive ValidationFailure where
  | circuit_exception (e : CircuitsError)
  | aggregate (error_data : List ErrItem)
deriving DecidableEq

/-- The `error_data` accumulation of `validate_model` (flex_model.py lines
127-184), in source order: reserved-bandwidth bound, reserved-bandwidth
sum, per-node interface uniqueness, circuit capacity and failed-state
parity, SRLG symmetry, node-name uniqueness. -/
def collect_error_data (m : Model) (circuits : List (Intf × Intf)) :
    List ErrItem :=
  (if int_res_bw_too_high m ≠ [] then
    [ErrItem.int_res_bw_too_high (int_res_bw_too_high m)] else [])
  ++ (if int_res_bw_sum_error m ≠ [] then
    [ErrItem.int_res_bw_sum_error (int_res_bw_sum_error m)] else [])
  ++ (if unique_interface_per_node m = false then
    [ErrItem.duplicate_interfaces_on_node] else [])
  ++ (if circuits_with_mismatched_interface_capacity circuits ≠ [] then
    [ErrItem.circuits_with_mismatched_interface_capacity
      (circuits_with_mismatched_interface_capacity circuits)] else [])
  ++ (if srlg_errors_calc m ≠ [] then
    [ErrItem.srlg_errors (srlg_errors_calc m)] else [])
  ++ (if m.node_objects.length ≠ node_names_dedup_count m then
    [ErrItem.duplicate_node_names m.node_objects.length
      (node_names_dedup_count m)] else [])

/-- Embeds `FlexModel.validate_model` (flex_model.py lines 110-193):
circuit formation runs first with `return_exception=True`, so its
exception propagates immediately; only then are the remaining checks run
and their failures accumulated into one aggregate error. -/
def validate_model (m : Model) : Except ValidationFailure Model :=
  match _make_circuits_multidigraph m true with
  | Except.error e => Except.error (ValidationFailure.circuit_exception e)
  | Except.ok (circuits, _) =>
    let error_data := collect_error_data m circuits
    if error_data.isEmpty then Except.ok m
    else Except.error (ValidationFailure.aggregate error_data)

/-- The load errors of the interfaces-table phase of `load_model_file`:
the circuit-id semantic check (flex_model.py lines 1129-1144) and a
malformed interface line (flex_model.py lines 1221-1225; a line with more
than eight columns, which raises `ValueError` in the source, is modelled
by the same malformed-line error). -/
inductive LoadError where
  | bad_circuit_ids (data : List (String × Nat))
  | bad_interface_line (toks : List String)
deriving DecidableEq

/-- The `circuit_id_list` of `load_model_file` (flex_model.py lines
1130-1136): the sixth token of every interface line that has one
(`IndexError` is passed over). -/
def circuit_id_tokens (interface_lines : List (List String)) : List String :=
  interface_lines.filterMap (fun toks => toks.get? 5)

/-- The `bad_circuit_ids` list of `load_model_file` (flex_model.py lines
1138-1139): each distinct circuit_id value whose appearance count differs
from two, with its count. -/
def bad_circuit_ids (interface_lines : List (List String)) :
    List (String × Nat) :=
  ((circuit_id_tokens interface_lines).dedup.filter
    (fun cid => (circuit_id_tokens interface_lines).count cid != 2)).map
    (fun cid => (cid, (circuit_id_tokens interface_lines).count cid))

/-- The `rsvp_enabled` column parse of
`_extract_interface_data_and_implied_nodes` (flex_model.py lines
1209-1220): the strings `T`, `True` and `true` mean enabled, anything else
disabled. -/
def parse_rsvp_enabled (s : String) : Bool :=
  s == "T" || s == "True" || s == "true"

/-- One line of `_extract_interface_data_and_implied_nodes` (flex_model.py
lines 1201-1229): 6, 7 or 8 columns are accepted (numeric tokens are
abstracted by `String.toNat?`); anything else is a malformed-line load
error. -/
def _extract_interface_line (toks : List String) : Except LoadError Intf :=
  match toks with
  | [node_name, remote_node_name, nm, cost, capacity, circuit_id] =>
    Except.ok ⟨nm, cost.toNat?.getD 0, ((capacity.toNat?.getD 0 : Nat) : ℚ),
      node_name, remote_node_name, circuit_id, true, 100, false, 0, 0⟩
  | [node_name, remote_node_name, nm, cost, capacity, circuit_id, rsvp] =>
    Except.ok ⟨nm, cost.toNat?.getD 0, ((capacity.toNat?.getD 0 : Nat) : ℚ),
      node_name, remote_node_name, circuit_id, parse_rsvp_enabled rsvp,
      100, false, 0, 0⟩
  | [node_name, remote_node_name, nm, cost, capacity, circuit_id, rsvp, pct] =>
    Except.ok ⟨nm, cost.toNat?.getD 0, ((capacity.toNat?.getD 0 : Nat) : ℚ),
      node_name, remote_node_name, circuit_id, parse_rsvp_enabled rsvp,
      ((pct.toNat?.getD 0 : Nat) : ℚ), false, 0, 0⟩
  | _ => Except.error (LoadError.bad_interface_line toks)

/-- Embeds `FlexModel._extract_interface_data_and_implied_nodes`
(flex_model.py lines 1186-1243): parse each line, disregard lines whose
interface key already exists, and collect the implied node names. -/
def _extract_interface_data_and_implied_nodes :
    List (List String) → List Intf → List String →
    Except LoadError (List Intf × List String)
  | [], interface_set, node_set => Except.ok (interface_set, node_set)
  | line :: rest, interface_set, node_set =>
    match _extract_interface_line line with
    | Except.error e => Except.error e
    | Except.ok i =>
      let interface_set' :=
        if interface_set.any (fun j =>
            j.node == i.node && j.intf_name == i.intf_name) then
          interface_set
        else interface_set ++ [i]
      let ns1 :=
        if node_set.contains i.node then node_set else node_set ++ [i.node]
      let node_set' :=
        if ns1.contains i.remote_node then ns1 else ns1 ++ [i.remote_node]
      _extract_interface_data_and_implied_nodes rest interface_set' node_set'

/-- Embeds the interfaces-table phase of `FlexModel.load_model_file`
(flex_model.py lines 1113-1147), taking the already-split interface-table
lines: the circuit-id semantic check runs first and raises with the full
offending list; only then is the interface data extracted.  The later
table phases (nodes, demands, LSPs — handled by `master_model.py` helpers
absent from `src/`) can only add further load errors and are beyond the
embedded claims. -/
def load_model_file (interface_lines : List (List String)) :
    Except LoadError (List Intf × List String) :=
  if bad_circuit_ids interface_lines ≠ [] then
    Except.error (LoadError.bad_circuit_ids (bad_circuit_ids interface_lines))
  else
    _extract_interface_data_and_implied_nodes interface_lines [] []

/-- Concrete node used by the witnesses. -/
def node_A : NodeObj := ⟨"A", [], false⟩

/-- Concrete node used by the witnesses. -/
def node_B : NodeObj := ⟨"B", [], false⟩

/-- Concrete auto-bandwidth LSP from A to B used by the witnesses. -/
def w_lsp : Lsp :=
  ⟨"A", "B", "lsp1", none, LspPathState.unrouted, BwState.unrouted,
    BwState.unrouted⟩

/-- Concrete healthy interface A→B used by the witnesses. -/
def intf_plain : Intf :=
  ⟨"A-to-B", 1, 100, "A", "B", "1", true, 100, false, 0, 0⟩

/-- Concrete interface B→A closing the circuit of `intf_plain`. -/
def intf_plain_rev : Intf :=
  ⟨"B-to-A", 1, 100, "B", "A", "1", true, 100, false, 0, 0⟩

/-- Concrete model with two isolated nodes and no interfaces. -/
def w_model_nopath : Model := ⟨[], [node_A, node_B], [], [], [], []⟩

/-- Concrete demand from A to B used by the witnesses. -/
def w_demand : Demand := ⟨"A", "B", 50, "dmd1", DemandPathState.unrouted⟩

/-- Concrete model with one demand and no interfaces. -/
def w_model_demand : Model :=
  ⟨[], [node_A, node_B], [w_demand], [], [], []⟩

/-- Concrete model with one circuit, one demand and one LSP. -/
def w_model_full : Model :=
  ⟨[intf_plain, intf_plain_rev], [node_A, node_B], [w_demand], [w_lsp],
    [], []⟩

/-- Concrete graph with a single edge, used by the enumeration witness. -/
def w_graph : NetGraph := ⟨[intf_plain], ["A", "B"]⟩

/-- Interface A→B whose reserved bandwidth exceeds its reservable bound. -/
def c5_intf_X : Intf :=
  ⟨"A-to-B", 1, 100, "A", "B", "1", true, 100, false, 150, 0⟩

/-- Healthy interface B→A paired with `c5_intf_X` by circuit_id. -/
def c5_intf_Y : Intf :=
  ⟨"B-to-A", 1, 100, "B", "A", "1", true, 100, false, 0, 0⟩

/-- Model with two distinct validation problems: `c5_intf_X` violates the
reserved-bandwidth bound (and, having negative reservable bandwidth, drops
out of the circuit graph, leaving `c5_intf_Y` orphaned). -/
def c5_bad_model : Model :=
  ⟨[c5_intf_X, c5_intf_Y], [node_A, node_B], [], [], [], []⟩

/-- A trivially valid model. -/
def c5_ok_model : Model := ⟨[], [node_A], [], [], [], []⟩

/-- Interface-table lines with correct circuit-id pairing but one
malformed five-column line. -/
def c9_cex_lines : List (List String) :=
  [["A", "B", "A-to-B", "1", "100", "c1"],
   ["B", "A", "B-to-A", "1", "100", "c1"],
   ["A", "B", "Bad", "1", "100"]]

/-- Interface-table lines whose single circuit_id appears once. -/
def c9_w_lines : List (List String) :=
  [["A", "B", "x", "1", "100", "c1"]]

/-- The first interface of the concrete one-circuit model after a
simulation tick. -/
def w_tick_intf : Intf :=
  ((update_simulation w_model_full (fun _ => 0)).interface_objects).getD 0
    intf_plain

end PyNTM

namespace PyNTM

/-- Specification of `List.min?` on `Nat` lists. -/
theorem nat_min?_spec {xs : List Nat} {m : Nat} (h : xs.min? = some m) :
    m ∈ xs ∧ ∀ b ∈ xs, m ≤ b := by
  rw [List.min?_eq_some_iff] at h
  · exact h
  · exact fun a => Nat.le_refl a
  · intro a b
    rcases Nat.le_total a b with hab | hab
    · exact Or.inl (Nat.min_eq_left hab)
    · exact Or.inr (Nat.min_eq_right hab)
  · exact fun a b c => Nat.le_min

/-- The per-hop ECMP set computed by `_get_all_paths_mdg` is exactly the set
of minimum-cost edges between the node pair. -/
theorem ecmp_links_eq_min_cost_edge_set (G : NetGraph) (u v : String) :
    ecmp_links G u v = min_cost_edge_set G u v := by
  unfold ecmp_links min_cost_edge_set
  refine List.filter_congr fun i hi => ?_
  rw [Bool.eq_iff_iff]
  simp only [beq_iff_eq, decide_eq_true_eq]
  have hne : edges_between G u v ≠ [] := List.ne_nil_of_mem hi
  rcases hm : ((edges_between G u v).map Intf.cost).min? with _ | m
  · rw [List.min?_eq_none_iff, List.map_eq_nil_iff] at hm
    exact absurd hm hne
  · obtain ⟨hmem, hle⟩ := nat_min?_spec hm
    simp only [min_edge_cost, hm, Option.getD_some]
    constructor
    · intro hcost j hj
      exact hcost ▸ hle _ (List.mem_map_of_mem Intf.cost hj)
    · intro hall
      refine Nat.le_antisymm ?_ (hle _ (List.mem_map_of_mem Intf.cost hi))
      obtain ⟨j, hj, hjc⟩ := List.mem_map.mp hmem
      exact hjc ▸ hall j hj

/-- Membership in the Cartesian product list: one element chosen from each
component, in order. -/
theorem mem_product_lists {α : Type} {ls : List (List α)} {p : List α} :
    p ∈ product_lists ls ↔ List.Forall₂ (fun x l => x ∈ l) p ls := by
  induction ls generalizing p with
  | nil =>
    simp only [product_lists, List.mem_singleton, List.forall₂_nil_right_iff]
  | cons l ls ih =>
    simp only [product_lists, List.mem_flatMap, List.mem_map]
    constructor
    · rintro ⟨x, hx, q, hq, rfl⟩
      exact List.Forall₂.cons hx (ih.mp hq)
    · intro h
      cases h with
      | cons hx hq => exact ⟨_, hx, _, ih.mpr hq, rfl⟩

/-- C4: the path enumerator returns exactly the flattened list, over all
input node-hop sequences, of the Cartesian products across adjacent node
pairs of the minimum-cost edge sets, and every returned concrete path picks
one interface per hop from the minimum-cost set of that hop. -/
theorem path_enumerator_product (G : NetGraph) (nx_sp : List (List String)) :
    _normalize_multidigraph_paths (_get_all_paths_mdg G nx_sp)
      = nx_sp.flatMap
          (fun ns => product_lists
            ((hops ns).map (fun uv => min_cost_edge_set G uv.1 uv.2)))
    ∧ ∀ p, p ∈ _normalize_multidigraph_paths (_get_all_paths_mdg G nx_sp) ↔
        ∃ ns ∈ nx_sp,
          List.Forall₂ (fun i uv => i ∈ min_cost_edge_set G uv.1 uv.2) p (hops ns) := by
  have hfun : (fun uv : String × String => ecmp_links G uv.1 uv.2)
      = (fun uv : String × String => min_cost_edge_set G uv.1 uv.2) :=
    funext fun uv => ecmp_links_eq_min_cost_edge_set G uv.1 uv.2
  have heq : _normalize_multidigraph_paths (_get_all_paths_mdg G nx_sp)
      = nx_sp.flatMap
          (fun ns => product_lists
            ((hops ns).map (fun uv => min_cost_edge_set G uv.1 uv.2))) := by
    unfold _normalize_multidigraph_paths _get_all_paths_mdg
    rw [List.flatMap_map, hfun]
  refine ⟨heq, fun p => ?_⟩
  rw [heq]
  simp only [List.mem_flatMap, mem_product_lists, List.forall₂_map_right_iff]

/-- C3: the topology graph builder keeps, per interface, exactly one edge
`node → remote_node` precisely when `(include_failed ∨ ¬failed) ∧
reservable_bandwidth ≥ needed_bw ∧ (¬rsvp_required ∨ rsvp_enabled)`, and
every node name of the model is a vertex even with no eligible edge. -/
theorem graph_builder_edge_rule_and_vertices (interface_objects : List Intf)
    (node_objects : List NodeObj) (include_failed_circuits : Bool)
    (needed_bw : ℚ) (rsvp_required : Bool) :
    (_make_weighted_network_graph_mdg interface_objects node_objects
        include_failed_circuits needed_bw rsvp_required).edges
      = interface_objects.filter
          (edge_eligible include_failed_circuits needed_bw rsvp_required)
    ∧ ∀ n ∈ node_objects,
        n.node_name ∈ (_make_weighted_network_graph_mdg interface_objects
          node_objects include_failed_circuits needed_bw rsvp_required).vertices := by
  constructor
  · cases include_failed_circuits <;> cases rsvp_required <;>
      simp [_make_weighted_network_graph_mdg, considered_interfaces,
        List.filter_filter] <;>
      (refine List.filter_congr fun i _ => ?_) <;>
      (cases hf : i.failed <;> cases hr : i.rsvp_enabled <;>
        simp [edge_eligible, hf, hr, ge_iff_le])
  · intro n hn
    simp [_make_weighted_network_graph_mdg]
    right
    exact ⟨n, hn, rfl⟩

/-- C1: an LSP processed by the placer ends with `path = 'Unrouted'` and
`reserved_bandwidth = 'Unrouted'` iff either no node-hop path exists in the
graph built with `include_failed=false`, `rsvp_required=true`,
`needed_bw=setup_bandwidth`, or no enumerated concrete interface sequence
has minimum reservable bandwidth at least the setup bandwidth; in either
case the interfaces are unchanged, and otherwise the chosen path is
committed onto the interfaces. -/
theorem lsp_placer_unrouted_iff (interface_objects : List Intf)
    (node_objects : List NodeObj) (lsp : Lsp) (traff : ℚ) (pick : Nat)
    (hsd : lsp.source ≠ lsp.dest) :
    let setup := effective_setup_bandwidth lsp traff
    let G := _make_weighted_network_graph_mdg interface_objects node_objects
      false setup true
    let res := _determine_lsp_state_info_one interface_objects node_objects
      lsp traff pick
    ((res.2.path = LspPathState.unrouted
        ∧ res.2.reserved_bandwidth = BwState.unrouted)
      ↔ (all_shortest_paths G lsp.source lsp.dest = none
        ∨ ∃ nx_sp, all_shortest_paths G lsp.source lsp.dest = some nx_sp
            ∧ ∀ p ∈ _normalize_multidigraph_paths (_get_all_paths_mdg G nx_sp),
                ¬ path_reservable_pred setup p = true))
    ∧ (res.2.path = LspPathState.unrouted → res.1 = interface_objects)
    ∧ (∀ ifaces c, res.2.path = LspPathState.routed ifaces c →
        res.1 = commit_reservations interface_objects ifaces setup) := by
  dsimp only
  rcases h : all_shortest_paths
      (_make_weighted_network_graph_mdg interface_objects node_objects false
        (effective_setup_bandwidth lsp traff) true) lsp.source lsp.dest
    with _ | nx_sp
  · have hres : _determine_lsp_state_info_one interface_objects node_objects
        lsp traff pick
        = (interface_objects,
           { lsp with path := LspPathState.unrouted,
                      setup_bandwidth :=
                        BwState.val (effective_setup_bandwidth lsp traff),
                      reserved_bandwidth := BwState.unrouted }) := by
      unfold _determine_lsp_state_info_one
      simp only [h]
    refine ⟨?_, ?_, ?_⟩
    · rw [hres]
      exact iff_of_true ⟨rfl, rfl⟩ (Or.inl rfl)
    · intro _
      rw [hres]
    · intro ifaces c hroute
      rw [hres] at hroute
      exact absurd hroute (by simp)
  · by_cases hE :
      (_normalize_multidigraph_paths
        (_get_all_paths_mdg
          (_make_weighted_network_graph_mdg interface_objects node_objects
            false (effective_setup_bandwidth lsp traff) true) nx_sp)).filter
        (path_reservable_pred (effective_setup_bandwidth lsp traff)) = []
    · have hres : _determine_lsp_state_info_one interface_objects node_objects
          lsp traff pick
          = (interface_objects,
             { lsp with path := LspPathState.unrouted,
                        setup_bandwidth :=
                          BwState.val (effective_setup_bandwidth lsp traff),
                        reserved_bandwidth := BwState.unrouted }) := by
        unfold _determine_lsp_state_info_one
        simp only [h, hE, List.length_nil, if_pos]
      refine ⟨?_, ?_, ?_⟩
      · rw [hres]
        exact iff_of_true ⟨rfl, rfl⟩
          (Or.inr ⟨nx_sp, rfl, List.filter_eq_nil_iff.mp hE⟩)
      · intro _
        rw [hres]
      · intro ifaces c hroute
        rw [hres] at hroute
        exact absurd hroute (by simp)
    · have hlen : ¬ ((_normalize_multidigraph_paths
          (_get_all_paths_mdg
            (_make_weighted_network_graph_mdg interface_objects node_objects
              false (effective_setup_bandwidth lsp traff) true) nx_sp)).filter
          (path_reservable_pred (effective_setup_bandwidth lsp traff))).length = 0 := by
        simpa [List.length_eq_zero] using hE
      have hres : _determine_lsp_state_info_one interface_objects node_objects
          lsp traff pick
          = (commit_reservations interface_objects
              (select_path
                ((_normalize_multidigraph_paths
                  (_get_all_paths_mdg
                    (_make_weighted_network_graph_mdg interface_objects
                      node_objects false (effective_setup_bandwidth lsp traff)
                      true) nx_sp)).filter
                  (path_reservable_pred (effective_setup_bandwidth lsp traff)))
                pick)
              (effective_setup_bandwidth lsp traff),
             { lsp with
                path := add_lsp_path_data
                  (select_path
                    ((_normalize_multidigraph_paths
                      (_get_all_paths_mdg
                        (_make_weighted_network_graph_mdg interface_objects
                          node_objects false
                          (effective_setup_bandwidth lsp traff) true)
                        nx_sp)).filter
                      (path_reservable_pred
                        (effective_setup_bandwidth lsp traff)))
                    pick),
                setup_bandwidth :=
                  BwState.val (effective_setup_bandwidth lsp traff),
                reserved_bandwidth :=
                  BwState.val (effective_setup_bandwidth lsp traff) }) := by
        unfold _determine_lsp_state_info_one
        simp only [h]
        rw [if_neg hlen]
      refine ⟨?_, ?_, ?_⟩
      · rw [hres]
        refine iff_of_false ?_ ?_
        · rintro ⟨hp, -⟩
          exact absurd hp (by simp [add_lsp_path_data])
        · rintro (hnone | ⟨nx_sp', hsome, hall⟩)
          · exact Option.noConfusion hnone
          · obtain rfl : nx_sp = nx_sp' := Option.some.inj hsome
            exact absurd (List.filter_eq_nil_iff.mpr hall) hE
      · intro hp
        rw [hres] at hp
        exact absurd hp (by simp [add_lsp_path_data])
      · intro ifaces c hroute
        rw [hres] at hroute ⊢
        simp only [add_lsp_path_data, LspPathState.routed.injEq] at hroute
        rw [hroute.1]

/-- C7: with several eligible candidate paths, the placer's selection is
always one of the candidates of minimal hop count; when exactly one
candidate attains the fewest hops the selection is independent of the
random pick, so randomness only decides among several fewest-hop paths. -/
theorem lsp_placer_fewest_hops_tie_break (cands : List (List Intf))
    (pick : Nat) (hne : cands ≠ []) :
    select_path cands pick ∈ cands
    ∧ (∀ p ∈ cands, (select_path cands pick).length ≤ p.length)
    ∧ ((cands.filter
          (fun p => p.length == ((cands.map List.length).min?).getD 0)).length = 1 →
        ∀ pick', select_path cands pick' = select_path cands pick) := by
  by_cases hlen : 1 < cands.length
  · have hmapne : cands.map List.length ≠ [] := by
      simpa using hne
    rcases hm : (cands.map List.length).min? with _ | m
    · rw [List.min?_eq_none_iff] at hm
      exact absurd hm hmapne
    obtain ⟨hmem, hle⟩ := nat_min?_spec hm
    obtain ⟨p0, hp0, hp0len⟩ := List.mem_map.mp hmem
    have hp0low : p0 ∈ cands.filter (fun p => p.length == m) :=
      List.mem_filter.mpr ⟨hp0, by simp [hp0len]⟩
    have hlowpos : 0 < (cands.filter (fun p => p.length == m)).length :=
      List.length_pos.mpr (List.ne_nil_of_mem hp0low)
    have key : ∀ k, k < (cands.filter (fun p => p.length == m)).length →
        (cands.filter (fun p => p.length == m)).getD k [] ∈ cands
        ∧ ((cands.filter (fun p => p.length == m)).getD k []).length = m := by
      intro k hk
      have hmem' : (cands.filter (fun p => p.length == m)).getD k []
          ∈ cands.filter (fun p => p.length == m) := by
        rw [List.getD_eq_getElem _ _ hk]
        exact List.getElem_mem hk
      obtain ⟨hc, hbeq⟩ := List.mem_filter.mp hmem'
      exact ⟨hc, by simpa using hbeq⟩
    have hsel : ∀ pk, select_path cands pk
        = (cands.filter (fun p => p.length == m)).getD
            (if 1 < (cands.filter (fun p => p.length == m)).length
              then pk % (cands.filter (fun p => p.length == m)).length else 0) [] := by
      intro pk
      unfold select_path
      rw [if_pos hlen]
      simp only [hm, Option.getD_some]
      split <;> rfl
    have hkbound : ∀ pk,
        (if 1 < (cands.filter (fun p => p.length == m)).length
          then pk % (cands.filter (fun p => p.length == m)).length else 0)
          < (cands.filter (fun p => p.length == m)).length := by
      intro pk
      split
      · exact Nat.mod_lt _ hlowpos
      · exact hlowpos
    refine ⟨?_, ?_, ?_⟩
    · rw [hsel pick]
      exact (key _ (hkbound pick)).1
    · intro p hp
      rw [hsel pick, (key _ (hkbound pick)).2]
      exact hle _ (List.mem_map_of_mem List.length hp)
    · intro hone pick'
      have hone' : (cands.filter (fun p => p.length == m)).length = 1 := by
        simpa [hm] using hone
      rw [hsel pick, hsel pick', hone']
      simp
  · obtain ⟨p, rfl⟩ : ∃ p, cands = [p] := by
      rcases cands with _ | ⟨p, _ | ⟨q, t⟩⟩
      · exact absurd rfl hne
      · exact ⟨p, rfl⟩
      · exact absurd (by simp only [List.length_cons]; omega) hlen
    refine ⟨?_, ?_, ?_⟩
    · simp [select_path]
    · intro p' hp'
      simp only [List.mem_singleton] at hp'
      subst hp'
      simp [select_path]
    · intro _ pick'
      simp [select_path]

/-- The modelled `all_shortest_paths` raises `NetworkXNoPath` (returns
`none`) exactly when no node-hop path exists at all. -/
theorem all_shortest_paths_eq_none_iff (G : NetGraph) (s t : String) :
    all_shortest_paths G s t = none ↔ all_simple_node_paths G s t = [] := by
  unfold all_shortest_paths
  rcases hm : ((all_simple_node_paths G s t).map (path_cost G)).min? with _ | mn
  · rw [List.min?_eq_none_iff, List.map_eq_nil_iff] at hm
    simp [hm]
  · have hne : all_simple_node_paths G s t ≠ [] := by
      intro h0
      rw [h0] at hm
      simp at hm
    simp [hm]
    exact hne

/-- C2: after demand routing, a demand with at least one routed LSP between
its exact endpoints rides exactly the list of those LSPs (no IP path);
otherwise its path is the full list of normalized interface sequences from
all min-cost node-hop paths of the graph built with `include_failed=false`,
`needed_bw=0`, `rsvp_required=false`, and it is `'Unrouted'` exactly when
no node-hop path exists in that graph. -/
theorem demand_router_lsp_preference_and_ecmp (m : Model) :
    List.Forall₂ (fun d d' =>
      (routed_lsps_between m.rsvp_lsp_objects d ≠ [] →
        d'.path = DemandPathState.on_lsps
          (routed_lsps_between m.rsvp_lsp_objects d))
      ∧ (routed_lsps_between m.rsvp_lsp_objects d = [] →
          ((d'.path = DemandPathState.unrouted ↔
              all_simple_node_paths (_make_weighted_network_graph_mdg
                m.interface_objects m.node_objects false 0 false)
                d.source d.dest = [])
           ∧ ∀ nx_sp, all_shortest_paths (_make_weighted_network_graph_mdg
                m.interface_objects m.node_objects false 0 false)
                d.source d.dest = some nx_sp →
              d'.path = DemandPathState.ip (_normalize_multidigraph_paths
                (_get_all_paths_mdg (_make_weighted_network_graph_mdg
                  m.interface_objects m.node_objects false 0 false) nx_sp)))))
      m.demand_objects (_route_demands m).demand_objects := by
  unfold _route_demands _update_interface_utilization
  dsimp only
  rw [List.forall₂_map_right_iff, List.forall₂_same]
  intro d _
  unfold route_one_demand
  by_cases hc : routed_lsps_between m.rsvp_lsp_objects d = []
  · have hempty : (routed_lsps_between m.rsvp_lsp_objects d).isEmpty = true :=
      List.isEmpty_iff.mpr hc
    rcases h : all_shortest_paths (_make_weighted_network_graph_mdg
        m.interface_objects m.node_objects false 0 false) d.source d.dest
      with _ | nx_sp
    · refine ⟨fun h' => absurd hc h', fun _ => ⟨?_, ?_⟩⟩
      · rw [if_pos hempty]
        exact iff_of_true rfl ((all_shortest_paths_eq_none_iff _ _ _).mp h)
      · intro nx_sp hsome
        exact Option.noConfusion hsome
    · refine ⟨fun h' => absurd hc h', fun _ => ⟨?_, ?_⟩⟩
      · rw [if_pos hempty]
        refine iff_of_false (by simp) ?_
        intro h0
        have hnone : all_shortest_paths (_make_weighted_network_graph_mdg
            m.interface_objects m.node_objects false 0 false) d.source d.dest
            = none := (all_shortest_paths_eq_none_iff _ _ _).mpr h0
        rw [h] at hnone
        exact Option.noConfusion hnone
      · intro nx_sp' hsome
        obtain rfl : nx_sp = nx_sp' := Option.some.inj hsome
        rw [if_pos hempty]
  · have hne : ¬ ((routed_lsps_between m.rsvp_lsp_objects d).isEmpty = true) := by
      simp [List.isEmpty_iff, hc]
    refine ⟨fun _ => ?_, fun h' => absurd h' hc⟩
    rw [if_neg hne]

/-- Specification of `List.min?` on `ℚ` lists. -/
theorem rat_min?_spec {xs : List ℚ} {m : ℚ} (h : xs.min? = some m) :
    m ∈ xs ∧ ∀ b ∈ xs, m ≤ b := by
  haveI : Std.Antisymm (fun (a b : ℚ) => a ≤ b) :=
    ⟨fun h1 h2 => le_antisymm h1 h2⟩
  rw [List.min?_eq_some_iff] at h
  · exact h
  · exact fun a => le_refl a
  · exact fun a b => min_choice a b
  · exact fun a b c => le_min_iff

/-- A path passing the reservable-bandwidth gate has every interface with
reservable bandwidth at least the setup bandwidth. -/
theorem path_reservable_all {setup : ℚ} {p : List Intf}
    (h : path_reservable_pred setup p = true) :
    ∀ i ∈ p, setup ≤ reservable_bandwidth i := by
  intro i hi
  unfold path_reservable_pred at h
  rcases hm : (p.map reservable_bandwidth).min? with _ | q
  · rw [hm] at h
    exact absurd h (by simp)
  · rw [hm] at h
    simp only [decide_eq_true_eq] at h
    obtain ⟨-, hqle⟩ := rat_min?_spec hm
    exact le_trans h (hqle _ (List.mem_map_of_mem _ hi))

/-- The tie-break selection always returns one of the candidates. -/
theorem select_path_mem {cands : List (List Intf)} (pick : Nat)
    (hne : cands ≠ []) : select_path cands pick ∈ cands := by
  by_cases hlen : 1 < cands.length
  · rcases hm : (cands.map List.length).min? with _ | mn
    · rw [List.min?_eq_none_iff, List.map_eq_nil_iff] at hm
      exact absurd hm hne
    obtain ⟨hmem, -⟩ := nat_min?_spec hm
    obtain ⟨p0, hp0, hp0len⟩ := List.mem_map.mp hmem
    have hp0low : p0 ∈ cands.filter (fun p => p.length == mn) :=
      List.mem_filter.mpr ⟨hp0, by simp [hp0len]⟩
    have hlowpos : 0 < (cands.filter (fun p => p.length == mn)).length :=
      List.length_pos.mpr (List.ne_nil_of_mem hp0low)
    unfold select_path
    rw [if_pos hlen]
    simp only [hm, Option.getD_some]
    split
    · have hk : pick % (cands.filter (fun p => p.length == mn)).length
          < (cands.filter (fun p => p.length == mn)).length :=
        Nat.mod_lt _ hlowpos
      rw [List.getD_eq_getElem _ _ hk]
      exact (List.mem_filter.mp (List.getElem_mem hk)).1
    · rw [List.getD_eq_getElem _ _ hlowpos]
      exact (List.mem_filter.mp (List.getElem_mem hlowpos)).1
  · rcases cands with _ | ⟨p, _ | ⟨q, t⟩⟩
    · exact absurd rfl hne
    · simp [select_path]
    · exact absurd (by simp only [List.length_cons]; omega) hlen

/-- Interfaces in the per-pair edge view are anchored on the first node. -/
theorem mem_edges_between_node {G : NetGraph} {u v : String} {i : Intf}
    (h : i ∈ edges_between G u v) : i.node = u := by
  obtain ⟨-, hp⟩ := List.mem_filter.mp h
  simp only [Bool.and_eq_true, beq_iff_eq] at hp
  exact hp.1

/-- A concrete path enumerated from node-hop sequences picks, per hop, an
edge from the hop's local ECMP set of some input node sequence. -/
theorem mem_normalize_gap {G : NetGraph} {nx_sp : List (List String)}
    {p : List Intf}
    (hp : p ∈ _normalize_multidigraph_paths (_get_all_paths_mdg G nx_sp)) :
    ∃ ns ∈ nx_sp,
      List.Forall₂ (fun i uv => i ∈ ecmp_links G uv.1 uv.2) p (hops ns) := by
  unfold _normalize_multidigraph_paths _get_all_paths_mdg at hp
  rw [List.flatMap_map] at hp
  obtain ⟨ns, hns, hmem⟩ := List.mem_flatMap.mp hp
  exact ⟨ns, hns,
    List.forall₂_map_right_iff.mp (mem_product_lists.mp hmem)⟩

/-- The first components of the adjacent pairs of a node sequence are the
sequence without its last node. -/
theorem hops_map_fst : ∀ (ns : List String), (hops ns).map Prod.fst = ns.dropLast
  | [] => rfl
  | [_] => rfl
  | u :: v :: rest => by
    simp only [hops, List.map_cons, hops_map_fst (v :: rest)]
    rfl

/-- The node names along a concrete enumerated path follow the node-hop
sequence it was enumerated from. -/
theorem forall₂_ecmp_node_eq {G : NetGraph} {p : List Intf}
    {hs : List (String × String)}
    (h : List.Forall₂ (fun i uv => i ∈ ecmp_links G uv.1 uv.2) p hs) :
    p.map Intf.node = hs.map Prod.fst := by
  induction h with
  | nil => rfl
  | cons hR _ ih =>
    simp only [List.map_cons, ih, List.cons.injEq, and_true]
    exact mem_edges_between_node (List.mem_filter.mp hR).1

/-- Paths produced by the fuel-bounded simple-path enumeration repeat no
node and avoid the visited set. -/
theorem simple_paths_aux_nodup (G : NetGraph) (dst : String) :
    ∀ (fuel : Nat) (cur : String) (visited : List String)
      (p : List String), cur ∉ visited →
      p ∈ simple_paths_aux G dst fuel cur visited →
      p.Nodup ∧ ∀ x ∈ p, x ∉ visited := by
  intro fuel
  induction fuel with
  | zero =>
    intro cur visited p _ hp
    simp [simple_paths_aux] at hp
  | succ fuel ih =>
    intro cur visited p hcur hp
    rw [simple_paths_aux] at hp
    by_cases hd : cur = dst
    · rw [if_pos hd] at hp
      simp only [List.mem_singleton] at hp
      subst hp
      exact ⟨List.nodup_singleton _, by simpa using hcur⟩
    · rw [if_neg hd] at hp
      simp only [List.mem_flatMap, List.mem_map, List.mem_filter] at hp
      obtain ⟨v, ⟨hv_succ, hv_not⟩, q, hq, rfl⟩ := hp
      have hvnot : v ∉ cur :: visited := by
        simpa using hv_not
      obtain ⟨hq_nodup, hq_avoid⟩ := ih v (cur :: visited) q hvnot hq
      constructor
      · refine List.nodup_cons.mpr ⟨?_, hq_nodup⟩
        intro hcurq
        exact (hq_avoid cur hcurq) (List.mem_cons_self _ _)
      · intro x hx
        rcases List.mem_cons.mp hx with rfl | hxq
        · exact hcur
        · intro hxv
          exact (hq_avoid x hxq) (List.mem_cons_of_mem _ hxv)

/-- Every node-hop path returned by the modelled shortest-path search is a
simple path. -/
theorem mem_all_shortest_paths_nodup {G : NetGraph} {s t : String}
    {sp : List (List String)} {ns : List String}
    (h : all_shortest_paths G s t = some sp) (hns : ns ∈ sp) : ns.Nodup := by
  simp only [all_shortest_paths] at h
  rcases hm : ((all_simple_node_paths G s t).map (path_cost G)).min? with _ | mn
  · rw [hm] at h
    exact Option.noConfusion h
  · rw [hm] at h
    obtain rfl := Option.some.inj h
    have hmem : ns ∈ all_simple_node_paths G s t :=
      (List.mem_filter.mp hns).1
    exact (simple_paths_aux_nodup G t _ s [] ns (by simp) hmem).1

/-- A concrete path chosen by the placer from the shortest-path enumeration
visits each interface at most once. -/
theorem count_occ_le_one {p : List Intf} (h : p.Nodup) (i : Intf) :
    count_occ p i ≤ 1 := by
  induction p with
  | nil => simp [count_occ]
  | cons a t ih =>
    rw [count_occ, List.countP_cons]
    obtain ⟨ha, ht⟩ := List.nodup_cons.mp h
    by_cases hai : a = i
    · subst hai
      have hz : List.countP (fun j => decide (j = a)) t = 0 := by
        rw [List.countP_eq_zero]
        intro b hb
        simp only [decide_eq_true_eq]
        rintro rfl
        exact ha hb
      simp [hz]
    · have ht1 := ih ht
      rw [count_occ] at ht1
      have hif : (if (fun j => decide (j = i)) a = true then 1 else 0) = 0 := by
        simp [hai]
      rw [hif]
      simpa using ht1

/-- Committing a reservation along a duplicate-free path whose every
interface has reservable bandwidth at least the committed amount preserves
the reserved-bandwidth bound. -/
theorem commit_reservations_bound {intfs path : List Intf} {setup : ℚ}
    (hb : ∀ i ∈ intfs,
      i.reserved_bandwidth ≤ i.capacity * i.percent_reservable_bandwidth / 100)
    (hnodup : path.Nodup)
    (hres : ∀ i ∈ path, setup ≤ reservable_bandwidth i) :
    ∀ i ∈ commit_reservations intfs path setup,
      i.reserved_bandwidth ≤ i.capacity * i.percent_reservable_bandwidth / 100 := by
  intro i' hi'
  unfold commit_reservations at hi'
  obtain ⟨j, hj, rfl⟩ := List.mem_map.mp hi'
  dsimp only
  rcases hcnt : count_occ path j with _ | n
  · push_cast
    have := hb j hj
    linarith
  · have hn : n = 0 := by
      have h2 := count_occ_le_one hnodup j
      rw [hcnt] at h2
      omega
    subst hn
    have hjmem : j ∈ path := by
      by_contra hnot
      have hz : count_occ path j = 0 := by
        rw [count_occ, List.countP_eq_zero]
        intro b hb'
        simp only [decide_eq_true_eq]
        rintro rfl
        exact hnot hb'
      rw [hcnt] at hz
      exact absurd hz (by simp)
    have hres_j := hres j hjmem
    unfold reservable_bandwidth at hres_j
    push_cast
    linarith

/-- One placer step preserves the reserved-bandwidth bound on every
interface: eligibility (minimum reservable bandwidth of the path at least
the setup bandwidth) guarantees the commit keeps every interface within
`capacity * percent_reservable_bandwidth / 100`. -/
theorem placer_step_preserves_bound (intfs : List Intf)
    (nodes : List NodeObj) (lsp : Lsp) (traff : ℚ) (pick : Nat)
    (hb : ∀ i ∈ intfs,
      i.reserved_bandwidth ≤ i.capacity * i.percent_reservable_bandwidth / 100) :
    ∀ i ∈ (_determine_lsp_state_info_one intfs nodes lsp traff pick).1,
      i.reserved_bandwidth ≤ i.capacity * i.percent_reservable_bandwidth / 100 := by
  rcases h : all_shortest_paths
      (_make_weighted_network_graph_mdg intfs nodes false
        (effective_setup_bandwidth lsp traff) true) lsp.source lsp.dest
    with _ | nx_sp
  · have hres : (_determine_lsp_state_info_one intfs nodes lsp traff pick).1
        = intfs := by
      unfold _determine_lsp_state_info_one
      simp only [h]
    rw [hres]
    exact hb
  · by_cases hE :
      (_normalize_multidigraph_paths
        (_get_all_paths_mdg
          (_make_weighted_network_graph_mdg intfs nodes false
            (effective_setup_bandwidth lsp traff) true) nx_sp)).filter
        (path_reservable_pred (effective_setup_bandwidth lsp traff)) = []
    · have hres : (_determine_lsp_state_info_one intfs nodes lsp traff pick).1
          = intfs := by
        unfold _determine_lsp_state_info_one
        simp only [h, hE, List.length_nil, if_pos]
      rw [hres]
      exact hb
    · have hlen : ¬ ((_normalize_multidigraph_paths
          (_get_all_paths_mdg
            (_make_weighted_network_graph_mdg intfs nodes false
              (effective_setup_bandwidth lsp traff) true) nx_sp)).filter
          (path_reservable_pred (effective_setup_bandwidth lsp traff))).length = 0 := by
        simpa [List.length_eq_zero] using hE
      have hres : (_determine_lsp_state_info_one intfs nodes lsp traff pick).1
          = commit_reservations intfs
              (select_path
                ((_normalize_multidigraph_paths
                  (_get_all_paths_mdg
                    (_make_weighted_network_graph_mdg intfs nodes false
                      (effective_setup_bandwidth lsp traff) true) nx_sp)).filter
                  (path_reservable_pred (effective_setup_bandwidth lsp traff)))
                pick)
              (effective_setup_bandwidth lsp traff) := by
        unfold _determine_lsp_state_info_one
        simp only [h]
        rw [if_neg hlen]
      rw [hres]
      have hselmem := select_path_mem pick hE
      obtain ⟨hmemnorm, hpred⟩ := List.mem_filter.mp hselmem
      have hgate := path_reservable_all hpred
      obtain ⟨ns, hns, hF⟩ := mem_normalize_gap hmemnorm
      have hns_nodup := mem_all_shortest_paths_nodup h hns
      have hsel_nodup : (select_path
          ((_normalize_multidigraph_paths
            (_get_all_paths_mdg
              (_make_weighted_network_graph_mdg intfs nodes false
                (effective_setup_bandwidth lsp traff) true) nx_sp)).filter
            (path_reservable_pred (effective_setup_bandwidth lsp traff)))
          pick).Nodup := by
        refine List.Nodup.of_map Intf.node ?_
        rw [forall₂_ecmp_node_eq hF, hops_map_fst]
        exact List.Nodup.sublist (List.dropLast_sublist ns) hns_nodup
      exact commit_reservations_bound hb hsel_nodup hgate

/-- The modelled `_route_lsps` iteration preserves the reserved-bandwidth
bound through every sequential placer step. -/
theorem route_lsps_go_preserves_bound (full_lsps : List Lsp)
    (demands : List Demand) (nodes : List NodeObj) (o : Nat → Nat) :
    ∀ (ls : List Lsp) (idx : Nat) (intfs : List Intf),
      (∀ i ∈ intfs,
        i.reserved_bandwidth ≤ i.capacity * i.percent_reservable_bandwidth / 100) →
      ∀ i ∈ (route_lsps_go full_lsps demands nodes o ls idx intfs).1,
        i.reserved_bandwidth ≤ i.capacity * i.percent_reservable_bandwidth / 100 := by
  intro ls
  induction ls with
  | nil =>
    intro idx intfs hb
    simpa [route_lsps_go] using hb
  | cons lsp rest ih =>
    intro idx intfs hb
    rw [route_lsps_go]
    exact ih (idx + 1) _ (placer_step_preserves_bound _ _ _ _ _ hb)

/-- C6: after a simulation tick every interface satisfies
`reserved_bandwidth ≤ capacity * percent_reservable_bandwidth / 100`
(given the validated-model precondition that capacities and reservable
percentages are nonnegative), and in particular each single LSP commit
preserves that bound because only paths with sufficient minimum reservable
bandwidth are eligible. -/
theorem reserved_bandwidth_bound_invariant (m : Model) (o : Nat → Nat)
    (hcap : ∀ i ∈ m.interface_objects,
      0 ≤ i.capacity * i.percent_reservable_bandwidth) :
    (∀ i ∈ (update_simulation m o).interface_objects,
      i.reserved_bandwidth ≤ i.capacity * i.percent_reservable_bandwidth / 100)
    ∧ ∀ (intfs : List Intf) (nodes : List NodeObj) (lsp : Lsp) (traff : ℚ)
        (pick : Nat),
        (∀ i ∈ intfs,
          i.reserved_bandwidth ≤ i.capacity * i.percent_reservable_bandwidth / 100) →
        ∀ i ∈ (_determine_lsp_state_info_one intfs nodes lsp traff pick).1,
          i.reserved_bandwidth ≤ i.capacity * i.percent_reservable_bandwidth / 100 := by
  constructor
  · have h1 : ∀ i ∈ (reset_model m).interface_objects,
        i.reserved_bandwidth ≤ i.capacity * i.percent_reservable_bandwidth / 100 := by
      intro i hi
      unfold reset_model at hi
      obtain ⟨j, hj, rfl⟩ := List.mem_map.mp hi
      simp only [zero_intf_counters]
      have := hcap j hj
      linarith
    have h2 : ∀ i ∈ (_route_lsps (reset_model m) o).interface_objects,
        i.reserved_bandwidth ≤ i.capacity * i.percent_reservable_bandwidth / 100 := by
      unfold _route_lsps
      exact route_lsps_go_preserves_bound _ _ _ _ _ _ _ h1
    intro i hi
    unfold update_simulation _route_demands _update_interface_utilization at hi
    dsimp only at hi
    obtain ⟨j, hj, rfl⟩ := List.mem_map.mp hi
    simp only [interface_with_traffic]
    exact h2 j hj
  · exact fun intfs nodes lsp traff pick hbnd =>
      placer_step_preserves_bound intfs nodes lsp traff pick hbnd

/-- The placer either leaves the interfaces untouched and marks the LSP
unrouted, or commits some path onto them and records it on the LSP. -/
theorem placer_cases (intfs : List Intf) (nodes : List NodeObj) (lsp : Lsp)
    (traff : ℚ) (pick : Nat) :
    (_determine_lsp_state_info_one intfs nodes lsp traff pick
        = (intfs,
           { lsp with
              path := LspPathState.unrouted,
              setup_bandwidth := BwState.val (effective_setup_bandwidth lsp traff),
              reserved_bandwidth := BwState.unrouted }))
    ∨ ∃ path, _determine_lsp_state_info_one intfs nodes lsp traff pick
        = (commit_reservations intfs path (effective_setup_bandwidth lsp traff),
           { lsp with
              path := add_lsp_path_data path,
              setup_bandwidth := BwState.val (effective_setup_bandwidth lsp traff),
              reserved_bandwidth :=
                BwState.val (effective_setup_bandwidth lsp traff) }) := by
  rcases h : all_shortest_paths
      (_make_weighted_network_graph_mdg intfs nodes false
        (effective_setup_bandwidth lsp traff) true) lsp.source lsp.dest
    with _ | nx_sp
  · left
    unfold _determine_lsp_state_info_one
    simp only [h]
  · by_cases hE :
      (_normalize_multidigraph_paths
        (_get_all_paths_mdg
          (_make_weighted_network_graph_mdg intfs nodes false
            (effective_setup_bandwidth lsp traff) true) nx_sp)).filter
        (path_reservable_pred (effective_setup_bandwidth lsp traff)) = []
    · left
      unfold _determine_lsp_state_info_one
      simp only [h, hE, List.length_nil, if_pos]
    · right
      have hlen : ¬ ((_normalize_multidigraph_paths
          (_get_all_paths_mdg
            (_make_weighted_network_graph_mdg intfs nodes false
              (effective_setup_bandwidth lsp traff) true) nx_sp)).filter
          (path_reservable_pred (effective_setup_bandwidth lsp traff))).length = 0 := by
        simpa [List.length_eq_zero] using hE
      refine ⟨select_path
        ((_normalize_multidigraph_paths
          (_get_all_paths_mdg
            (_make_weighted_network_graph_mdg intfs nodes false
              (effective_setup_bandwidth lsp traff) true) nx_sp)).filter
          (path_reservable_pred (effective_setup_bandwidth lsp traff))) pick, ?_⟩
      unfold _determine_lsp_state_info_one
      simp only [h]
      rw [if_neg hlen]

/-- Scrubbing the derived fields of the placer's output LSP recovers the
scrub of the input LSP: the placer only reads and writes through the
static identity. -/
theorem placer_scrub (intfs : List Intf) (nodes : List NodeObj) (lsp : Lsp)
    (traff : ℚ) (pick : Nat) :
    lsp_scrub (_determine_lsp_state_info_one intfs nodes lsp traff pick).2
      = lsp_scrub lsp := by
  rcases placer_cases intfs nodes lsp traff pick with h | ⟨path, h⟩ <;>
    rw [h] <;> rfl

/-- Committing reservations does not change the static part of any
interface. -/
theorem commit_zero (l p : List Intf) (a : ℚ) :
    (commit_reservations l p a).map zero_intf_counters
      = l.map zero_intf_counters := by
  unfold commit_reservations
  rw [List.map_map]
  rfl

/-- The placer does not change the static part of any interface. -/
theorem placer_intf_zero (intfs : List Intf) (nodes : List NodeObj)
    (lsp : Lsp) (traff : ℚ) (pick : Nat) :
    ((_determine_lsp_state_info_one intfs nodes lsp traff pick).1).map
        zero_intf_counters
      = intfs.map zero_intf_counters := by
  rcases placer_cases intfs nodes lsp traff pick with h | ⟨path, h⟩
  · rw [h]
  · rw [h]
    exact commit_zero intfs path (effective_setup_bandwidth lsp traff)

/-- The LSP-routing iteration does not change the static part of any
interface. -/
theorem route_lsps_go_intf_zero (full_lsps : List Lsp)
    (demands : List Demand) (nodes : List NodeObj) (o : Nat → Nat) :
    ∀ (ls : List Lsp) (idx : Nat) (intfs : List Intf),
      ((route_lsps_go full_lsps demands nodes o ls idx intfs).1).map
          zero_intf_counters
        = intfs.map zero_intf_counters := by
  intro ls
  induction ls with
  | nil => intro idx intfs; rfl
  | cons lsp rest ih =>
    intro idx intfs
    rw [route_lsps_go]
    dsimp only
    rw [ih]
    exact placer_intf_zero _ _ _ _ _

/-- The LSP-routing iteration preserves the static part of every LSP, in
order. -/
theorem route_lsps_go_scrub (full_lsps : List Lsp) (demands : List Demand)
    (nodes : List NodeObj) (o : Nat → Nat) :
    ∀ (ls : List Lsp) (idx : Nat) (intfs : List Intf),
      ((route_lsps_go full_lsps demands nodes o ls idx intfs).2).map lsp_scrub
        = ls.map lsp_scrub := by
  intro ls
  induction ls with
  | nil => intro idx intfs; rfl
  | cons lsp rest ih =>
    intro idx intfs
    rw [route_lsps_go]
    dsimp only
    rw [List.map_cons, ih, placer_scrub]
    rfl

/-- The parallel-LSP group size only depends on the static parts. -/
theorem parallel_group_size_scrub (l : List Lsp) (k : String × String) :
    parallel_group_size (l.map lsp_scrub) k = parallel_group_size l k := by
  unfold parallel_group_size
  rw [List.filter_map, List.length_map]
  rfl

/-- The placer's result only depends on the static part of the LSP: its
derived fields are overwritten before any read. -/
theorem placer_congr (intfs : List Intf) (nodes : List NodeObj) {a b : Lsp}
    (h : lsp_scrub a = lsp_scrub b) (traff : ℚ) (pick : Nat) :
    _determine_lsp_state_info_one intfs nodes a traff pick
      = _determine_lsp_state_info_one intfs nodes b traff pick := by
  cases a with | mk as ad an ac ap asb arb =>
  cases b with | mk bs bd bn bc bp bsb brb =>
  simp only [lsp_scrub, Lsp.mk.injEq, and_true] at h
  obtain ⟨h1, h2, h3, h4⟩ := h
  subst h1
  subst h2
  subst h3
  subst h4
  rfl

/-- The LSP-routing iteration only depends on the static parts of the LSP
lists. -/
theorem route_lsps_go_congr (demands : List Demand) (nodes : List NodeObj)
    (o : Nat → Nat) {full1 full2 : List Lsp}
    (hfull : full1.map lsp_scrub = full2.map lsp_scrub) :
    ∀ (ls1 : List Lsp) {ls2 : List Lsp},
      ls1.map lsp_scrub = ls2.map lsp_scrub →
      ∀ (idx : Nat) (intfs : List Intf),
        route_lsps_go full1 demands nodes o ls1 idx intfs
          = route_lsps_go full2 demands nodes o ls2 idx intfs := by
  intro ls1
  induction ls1 with
  | nil =>
    intro ls2 h idx intfs
    obtain rfl : ls2 = [] := by
      have h' : ls2.map lsp_scrub = [] := by simpa using h.symm
      rwa [List.map_eq_nil_iff] at h'
    rfl
  | cons a t ih =>
    intro ls2 h idx intfs
    rcases ls2 with _ | ⟨b, t2⟩
    · exact absurd h (by simp)
    · simp only [List.map_cons, List.cons.injEq] at h
      obtain ⟨hab, ht⟩ := h
      have hsrc : a.source = b.source := by
        have h0 := congrArg Lsp.source hab
        simpa [lsp_scrub] using h0
      have hdst : a.dest = b.dest := by
        have h0 := congrArg Lsp.dest hab
        simpa [lsp_scrub] using h0
      have hsize : parallel_group_size full1 (a.source, a.dest)
          = parallel_group_size full2 (b.source, b.dest) := by
        rw [← parallel_group_size_scrub full1, hfull,
          parallel_group_size_scrub, hsrc, hdst]
      have htraffeq : demand_traffic_for demands (a.source, a.dest)
            / (parallel_group_size full1 (a.source, a.dest) : ℚ)
          = demand_traffic_for demands (b.source, b.dest)
            / (parallel_group_size full2 (b.source, b.dest) : ℚ) := by
        rw [hsize, hsrc, hdst]
      have hp : _determine_lsp_state_info_one intfs nodes a
            (demand_traffic_for demands (a.source, a.dest)
              / (parallel_group_size full1 (a.source, a.dest) : ℚ)) (o idx)
          = _determine_lsp_state_info_one intfs nodes b
            (demand_traffic_for demands (b.source, b.dest)
              / (parallel_group_size full2 (b.source, b.dest) : ℚ)) (o idx) := by
        rw [placer_congr intfs nodes hab, htraffeq]
      rw [route_lsps_go, route_lsps_go]
      rw [hp, ih ht (idx + 1) _]

/-- Demand routing does not change the static part of a demand. -/
theorem route_one_demand_statics (G : NetGraph) (ls : List Lsp) (d : Demand) :
    demand_path_reset (route_one_demand G ls d) = demand_path_reset d := by
  unfold route_one_demand
  dsimp only
  split
  · split <;> rfl
  · rfl

/-- Simulation does not change the node set. -/
theorem update_simulation_nodes (m : Model) (o : Nat → Nat) :
    (update_simulation m o).node_objects = m.node_objects := rfl

/-- Simulation does not change the SRLG set. -/
theorem update_simulation_srlgs (m : Model) (o : Nat → Nat) :
    (update_simulation m o).srlg_objects = m.srlg_objects := rfl

/-- Simulation does not change the static part of any demand. -/
theorem update_simulation_demand_statics (m : Model) (o : Nat → Nat) :
    (update_simulation m o).demand_objects.map demand_path_reset
      = m.demand_objects.map demand_path_reset := by
  unfold update_simulation _route_demands _update_interface_utilization
    _route_lsps reset_model
  dsimp only
  rw [List.map_map, List.map_map]
  refine List.map_congr_left fun d _ => ?_
  show demand_path_reset
      (route_one_demand _ _ (demand_path_reset d)) = demand_path_reset d
  rw [route_one_demand_statics]
  rfl

/-- Simulation does not change the static part of any interface. -/
theorem update_simulation_intf_statics (m : Model) (o : Nat → Nat) :
    (update_simulation m o).interface_objects.map zero_intf_counters
      = m.interface_objects.map zero_intf_counters := by
  unfold update_simulation _route_demands _update_interface_utilization
    _route_lsps reset_model
  dsimp only
  rw [List.map_map]
  have h1 : ∀ (D : List Demand),
      zero_intf_counters ∘ interface_with_traffic D = zero_intf_counters :=
    fun D => funext fun i => rfl
  rw [h1]
  rw [route_lsps_go_intf_zero]
  rw [List.map_map]
  rfl

/-- Simulation does not change the static part of any LSP, in order. -/
theorem update_simulation_lsp_statics (m : Model) (o : Nat → Nat) :
    (update_simulation m o).rsvp_lsp_objects.map lsp_scrub
      = m.rsvp_lsp_objects.map lsp_scrub := by
  unfold update_simulation _route_demands _update_interface_utilization
    _route_lsps reset_model
  dsimp only
  rw [route_lsps_go_scrub]
  rw [List.map_map]
  rfl

/-- LSP routing only depends on the static parts of the model's LSP list;
all other inputs equal, statics-equal LSP lists give equal results. -/
theorem _route_lsps_congr (o : Nat → Nat) (I : List Intf) (N : List NodeObj)
    (D : List Demand) (S : List Srlg)
    (P : List ((String × String) × List Lsp)) {l1 l2 : List Lsp}
    (hL : l1.map lsp_scrub = l2.map lsp_scrub) :
    _route_lsps ⟨I, N, D, l1, S, P⟩ o = _route_lsps ⟨I, N, D, l2, S, P⟩ o := by
  unfold _route_lsps
  dsimp only
  rw [route_lsps_go_congr D N o hL l1 hL 0 I]

/-- C8: running `update_simulation` twice in succession yields the same
state as running it once with the second run's tie-break picks: the second
run first resets every derived quantity (interface counters, LSP and
demand paths, the parallel-LSP group cache), so nothing computed by the
first run influences it. -/
theorem simulation_tick_idempotent (m : Model) (o o' : Nat → Nat) :
    update_simulation (update_simulation m o) o' = update_simulation m o' := by
  show _route_demands (_route_lsps (reset_model (update_simulation m o)) o')
      = _route_demands (_route_lsps (reset_model m) o')
  congr 1
  have hreset : ∀ (X : Model), reset_model X
      = Model.mk (X.interface_objects.map zero_intf_counters) X.node_objects
          (X.demand_objects.map demand_path_reset)
          (X.rsvp_lsp_objects.map lsp_path_reset) X.srlg_objects [] :=
    fun X => rfl
  rw [hreset, hreset, update_simulation_nodes, update_simulation_srlgs,
    update_simulation_demand_statics, update_simulation_intf_statics]
  have hscrub : (lsp_scrub ∘ lsp_path_reset) = lsp_scrub :=
    funext fun l => rfl
  have hL : ((update_simulation m o).rsvp_lsp_objects.map lsp_path_reset).map
        lsp_scrub
      = (m.rsvp_lsp_objects.map lsp_path_reset).map lsp_scrub := by
    rw [List.map_map, List.map_map, hscrub, update_simulation_lsp_statics]
  exact _route_lsps_congr o' _ _ _ _ _ hL

/-- C10: for existing endpoints with no eligible path, `get_shortest_path`
returns the dictionary with `cost=None` and an empty path list, and
`get_all_paths_reservable_bw` returns an empty path list — the no-path
condition is absorbed instead of raising. -/
theorem no_path_soft_results (m : Model) (src dst : String) (needed_bw : ℚ)
    (include_failed_circuits : Bool) (cutoff : Nat)
    (hsrc : src ∈ m.node_objects.map NodeObj.node_name)
    (hdst : dst ∈ m.node_objects.map NodeObj.node_name)
    (h1 : all_simple_node_paths (_make_weighted_network_graph_mdg
      m.interface_objects m.node_objects false needed_bw false) src dst = [])
    (h2 : all_simple_paths_cutoff (_make_weighted_network_graph_mdg
      m.interface_objects m.node_objects include_failed_circuits needed_bw
      false) src dst cutoff = []) :
    get_shortest_path m src dst needed_bw
      = { cost := none, path := [] }
    ∧ get_all_paths_reservable_bw m src dst include_failed_circuits cutoff
        needed_bw = [] := by
  constructor
  · unfold get_shortest_path
    have hn : all_shortest_paths (_make_weighted_network_graph_mdg
        m.interface_objects m.node_objects false needed_bw false) src dst
        = none := (all_shortest_paths_eq_none_iff _ _ _).mpr h1
    simp only [hn]
  · unfold get_all_paths_reservable_bw
    simp only [h2]
    rfl

/-- Witness for C10 on a concrete two-node model with no interfaces. -/
theorem no_path_soft_results_witness :
    get_shortest_path w_model_nopath "A" "B" 0
      = { cost := none, path := [] }
    ∧ get_all_paths_reservable_bw w_model_nopath "A" "B" false 10 0 = [] :=
  no_path_soft_results w_model_nopath "A" "B" 0 false 10 (by decide)
    (by decide) (by rfl) (by rfl)

/-- Membership characterization of the offending-circuit-id list: exactly
the circuit ids of the table whose count differs from two, with their
counts. -/
theorem mem_bad_circuit_ids {interface_lines : List (List String)}
    {cid : String} {n : Nat} :
    (cid, n) ∈ bad_circuit_ids interface_lines ↔
      cid ∈ circuit_id_tokens interface_lines
        ∧ n = (circuit_id_tokens interface_lines).count cid ∧ n ≠ 2 := by
  unfold bad_circuit_ids
  constructor
  · intro h
    obtain ⟨c, hc, hpair⟩ := List.mem_map.mp h
    obtain ⟨hcdedup, hcnt⟩ := List.mem_filter.mp hc
    obtain ⟨rfl, rfl⟩ : c = cid
        ∧ (circuit_id_tokens interface_lines).count c = n := by
      exact Prod.mk.injEq .. ▸ hpair
    refine ⟨List.mem_dedup.mp hcdedup, rfl, ?_⟩
    simpa using hcnt
  · rintro ⟨hmem, rfl, hne⟩
    refine List.mem_map.mpr ⟨cid, List.mem_filter.mpr
      ⟨List.mem_dedup.mpr hmem, ?_⟩, rfl⟩
    simpa using hne

/-- A malformed interface line is the only error the line parser raises. -/
theorem extract_line_error_shape {toks : List String} {e : LoadError}
    (h : _extract_interface_line toks = Except.error e) :
    e = LoadError.bad_interface_line toks := by
  unfold _extract_interface_line at h
  split at h <;> simp_all

/-- The interface-extraction phase never raises the circuit-id error. -/
theorem extract_no_circuit_error :
    ∀ (lines : List (List String)) (acc_i : List Intf) (acc_n : List String)
      (data : List (String × Nat)),
      _extract_interface_data_and_implied_nodes lines acc_i acc_n
        ≠ Except.error (LoadError.bad_circuit_ids data) := by
  intro lines
  induction lines with
  | nil =>
    intro acc_i acc_n data h
    rw [_extract_interface_data_and_implied_nodes] at h
    exact Except.noConfusion h
  | cons line rest ih =>
    intro acc_i acc_n data h
    rw [_extract_interface_data_and_implied_nodes] at h
    rcases he : _extract_interface_line line with e | i
    · rw [he] at h
      have := extract_line_error_shape he
      subst this
      exact LoadError.noConfusion (Except.error.inj h)
    · rw [he] at h
      exact ih _ _ _ h

/-- C9 (amended): the circuit-id semantic check of `load_model_file` makes
it raise the circuit-id load error exactly when some circuit_id value in
the interfaces table appears a number of times different from two, and
that error enumerates precisely the offending values with their counts;
other malformed input can still raise other load errors. -/
theorem load_model_file_circuit_id_check (interface_lines : List (List String)) :
    ((∃ data, load_model_file interface_lines
        = Except.error (LoadError.bad_circuit_ids data)) ↔
      ∃ cid ∈ circuit_id_tokens interface_lines,
        (circuit_id_tokens interface_lines).count cid ≠ 2)
    ∧ ∀ data, load_model_file interface_lines
        = Except.error (LoadError.bad_circuit_ids data) →
        ∀ cid n, ((cid, n) ∈ data ↔
          cid ∈ circuit_id_tokens interface_lines
            ∧ n = (circuit_id_tokens interface_lines).count cid ∧ n ≠ 2) := by
  constructor
  · constructor
    · rintro ⟨data, hdata⟩
      by_cases hbad : bad_circuit_ids interface_lines ≠ []
      · obtain ⟨⟨cid, n⟩, hmem⟩ := List.exists_mem_of_ne_nil _ hbad
        obtain ⟨h1, h2, h3⟩ := mem_bad_circuit_ids.mp hmem
        exact ⟨cid, h1, h2 ▸ h3⟩
      · unfold load_model_file at hdata
        rw [if_neg hbad] at hdata
        exact absurd hdata (extract_no_circuit_error _ _ _ _)
    · rintro ⟨cid, hmem, hcnt⟩
      have hin : (cid, (circuit_id_tokens interface_lines).count cid)
          ∈ bad_circuit_ids interface_lines :=
        mem_bad_circuit_ids.mpr ⟨hmem, rfl, hcnt⟩
      have hbad : bad_circuit_ids interface_lines ≠ [] :=
        List.ne_nil_of_mem hin
      refine ⟨bad_circuit_ids interface_lines, ?_⟩
      unfold load_model_file
      rw [if_pos hbad]
  · intro data hdata cid n
    by_cases hbad : bad_circuit_ids interface_lines ≠ []
    · unfold load_model_file at hdata
      rw [if_pos hbad] at hdata
      obtain rfl : bad_circuit_ids interface_lines = data :=
        LoadError.bad_circuit_ids.inj (Except.error.inj hdata)
      exact mem_bad_circuit_ids
    · unfold load_model_file at hdata
      rw [if_neg hbad] at hdata
      exact absurd hdata (extract_no_circuit_error _ _ _ _)

/-- Counterexample to C9 as stated: a table whose every circuit_id appears
exactly twice still makes `load_model_file` raise a load error, because of
a malformed five-column line. -/
theorem load_error_without_circuit_id_violation :
    (∃ e, load_model_file c9_cex_lines = Except.error e)
    ∧ bad_circuit_ids c9_cex_lines = []
    ∧ ∀ cid ∈ circuit_id_tokens c9_cex_lines,
        (circuit_id_tokens c9_cex_lines).count cid = 2 := by
  refine ⟨⟨LoadError.bad_interface_line ["A", "B", "Bad", "1", "100"], ?_⟩,
    ?_, ?_⟩
  · with_unfolding_all rfl
  · with_unfolding_all decide
  · decide

/-- Witness for the amended C9 on a table with a once-appearing
circuit_id. -/
theorem load_model_file_circuit_id_check_witness :
    "c1" ∈ circuit_id_tokens c9_w_lines
      ∧ (1 : Nat) = (circuit_id_tokens c9_w_lines).count "c1"
      ∧ (1 : Nat) ≠ 2 :=
  ((load_model_file_circuit_id_check c9_w_lines).2 [("c1", 1)]
    (by with_unfolding_all rfl) "c1" 1).mp (by decide)

/-- An optional singleton is empty exactly when its condition fails. -/
theorem if_singleton_eq_nil {α : Type} {c : Prop} [Decidable c] {a : α} :
    (if c then [a] else []) = [] ↔ ¬ c := by
  split <;> simp_all

/-- The aggregate error data is empty exactly when every accumulated check
passes. -/
theorem collect_error_data_eq_nil_iff (m : Model)
    (circuits : List (Intf × Intf)) :
    collect_error_data m circuits = [] ↔
      (int_res_bw_too_high m = [] ∧ int_res_bw_sum_error m = []
        ∧ unique_interface_per_node m = true
        ∧ circuits_with_mismatched_interface_capacity circuits = []
        ∧ srlg_errors_calc m = []
        ∧ m.node_objects.length = node_names_dedup_count m) := by
  unfold collect_error_data
  simp only [List.append_eq_nil, if_singleton_eq_nil, ne_eq, not_not,
    Bool.not_eq_false, and_assoc]

/-- C5 (amended): `validate_model` propagates the circuit-formation
exception immediately, before any other check; once circuit formation
succeeds, all remaining checks run and their failures are accumulated into
at most one aggregate error, raised exactly when some check failed. -/
theorem validate_model_aggregate_after_circuits (m : Model) :
    (∀ e, _make_circuits_multidigraph m true = Except.error e →
        validate_model m = Except.error (ValidationFailure.circuit_exception e))
    ∧ (∀ circuits orphans,
        _make_circuits_multidigraph m true = Except.ok (circuits, orphans) →
        ((validate_model m = Except.ok m ↔
            (int_res_bw_too_high m = [] ∧ int_res_bw_sum_error m = []
              ∧ unique_interface_per_node m = true
              ∧ circuits_with_mismatched_interface_capacity circuits = []
              ∧ srlg_errors_calc m = []
              ∧ m.node_objects.length = node_names_dedup_count m))
          ∧ (validate_model m = Except.ok m
            ∨ validate_model m
              = Except.error (ValidationFailure.aggregate
                  (collect_error_data m circuits))))) := by
  constructor
  · intro e he
    unfold validate_model
    rw [he]
  · intro circuits orphans hc
    unfold validate_model
    rw [hc]
    dsimp only
    constructor
    · rw [← collect_error_data_eq_nil_iff m circuits]
      constructor
      · intro hok
        by_cases hE : (collect_error_data m circuits).isEmpty = true
        · exact List.isEmpty_iff.mp hE
        · rw [if_neg hE] at hok
          exact Except.noConfusion hok
      · intro hnil
        rw [if_pos (List.isEmpty_iff.mpr hnil)]
    · by_cases hE : (collect_error_data m circuits).isEmpty = true
      · left
        rw [if_pos hE]
      · right
        rw [if_neg hE]

/-- Counterexample to C5 as stated: a model with both an orphan interface
and a reserved-bandwidth violation raises the circuit-formation exception
alone — not an aggregate error carrying every failure. -/
theorem validator_raises_before_other_checks :
    validate_model c5_bad_model
      = Except.error (ValidationFailure.circuit_exception
          (CircuitsError.unmatched_interfaces [c5_intf_Y]))
    ∧ int_res_bw_too_high c5_bad_model = [("A", "A-to-B")]
    ∧ ∀ error_data, validate_model c5_bad_model
        ≠ Except.error (ValidationFailure.aggregate error_data) := by
  have h1 : validate_model c5_bad_model
      = Except.error (ValidationFailure.circuit_exception
          (CircuitsError.unmatched_interfaces [c5_intf_Y])) := by
    with_unfolding_all rfl
  refine ⟨h1, by with_unfolding_all decide, ?_⟩
  intro error_data h
  rw [h1] at h
  exact ValidationFailure.noConfusion (Except.error.inj h)

/-- Witness for the amended C5 on a trivially valid model. -/
theorem validate_model_aggregate_witness :
    validate_model c5_ok_model = Except.ok c5_ok_model := by
  have h := (validate_model_aggregate_after_circuits c5_ok_model).2 [] none
    (by with_unfolding_all rfl)
  exact h.1.mpr (by with_unfolding_all decide)

/-- Witness for C1 on a concrete LSP with no available path. -/
theorem lsp_placer_unrouted_iff_witness :
    (_determine_lsp_state_info_one [] [node_A, node_B] w_lsp 5 0).2.path
        = LspPathState.unrouted
    ∧ (_determine_lsp_state_info_one [] [node_A, node_B] w_lsp 5 0).2.reserved_bandwidth
        = BwState.unrouted := by
  have h := lsp_placer_unrouted_iff [] [node_A, node_B] w_lsp 5 0 (by decide)
  exact h.1.mpr (Or.inl (by rfl))

/-- Witness for C2 on a concrete demand with no LSPs and no path. -/
theorem demand_router_witness :
    ((_route_demands w_model_demand).demand_objects).map Demand.path
      = [DemandPathState.unrouted] := by
  have h := demand_router_lsp_preference_and_ecmp w_model_demand
  rcases hL : (_route_demands w_model_demand).demand_objects
    with _ | ⟨d', rest⟩
  · rw [show w_model_demand.demand_objects = [w_demand] from rfl, hL] at h
    cases h
  · rw [show w_model_demand.demand_objects = [w_demand] from rfl, hL] at h
    cases h with
    | cons hd ht =>
      cases ht
      have hp : d'.path = DemandPathState.unrouted :=
        ((hd.2 (by rfl)).1).mpr (by rfl)
      simp [hp]

/-- Witness for C3 on a concrete one-node model. -/
theorem graph_builder_witness :
    node_A.node_name ∈ (_make_weighted_network_graph_mdg [] [node_A] false 0
      false).vertices :=
  (graph_builder_edge_rule_and_vertices [] [node_A] false 0 false).2 node_A
    (by decide)

/-- Witness for C4 on a concrete one-edge graph. -/
theorem path_enumerator_witness :
    _normalize_multidigraph_paths (_get_all_paths_mdg w_graph [["A", "B"]])
      = [["A", "B"]].flatMap (fun ns =>
          product_lists ((hops ns).map
            (fun uv => min_cost_edge_set w_graph uv.1 uv.2))) :=
  (path_enumerator_product w_graph [["A", "B"]]).1

/-- Witness for C6 on a concrete one-circuit model. -/
theorem reserved_bound_witness :
    w_tick_intf.reserved_bandwidth
      ≤ w_tick_intf.capacity * w_tick_intf.percent_reservable_bandwidth / 100 :=
  (reserved_bandwidth_bound_invariant w_model_full (fun _ => 0)
    (by with_unfolding_all decide)).1 w_tick_intf
    (by with_unfolding_all decide)

/-- Witness for C7 on a concrete single-candidate selection. -/
theorem tie_break_witness :
    select_path [[intf_plain]] 0 ∈ [[intf_plain]] :=
  (lsp_placer_fewest_hops_tie_break [[intf_plain]] 0 (by decide)).1

/-- Witness for C8 on a concrete one-circuit model. -/
theorem simulation_tick_idempotent_witness :
    update_simulation (update_simulation w_model_full (fun _ => 0))
        (fun _ => 1)
      = update_simulation w_model_full (fun _ => 1) :=
  simulation_tick_idempotent w_model_full (fun _ => 0) (fun _ => 1)

end PyNTM
